import Mathlib

/-!
# SkateProject: the trick matcher of `ASkateProjectCharacter`

A shallow embedding of `Source/SkateProject/SkateProjectCharacter.cpp`:
`CustomBeginPlay`, `Tick`, `AttemptExecuteTrick` and `RemoveTrick`.

Modelling conventions.

* `float` values are idealised as exact rationals. `FVector2D::Size()` takes a
  square root, so every comparison of a size with a threshold is decided on the
  squares, with the sign of the threshold taken into account; the comparison of
  the dot product of two normalised vectors with a threshold is decided the same
  way. Both are exact over the reals.
* `TArray::operator[]` and `TArray::RemoveAt` range-check their index; an index
  out of range ends the call with `Outcome.outOfBounds`.
* The inner `for` loop of `Tick` can run forever (a non-empty library whose tricks
  all have zero points); the loop is given fuel, and running out of it is
  `Outcome.diverged`.
* Engine calls that only draw debug text (`GEngine->AddOnScreenDebugMessage`) or
  forward a value to the controller have no effect on the matcher and are left
  out; the array accesses made to compute their arguments are kept.
-/

namespace SkateProject

/-- The engine's two-dimensional vector, with rational coordinates. -/
structure FVector2D where
  X : ℚ
  Y : ℚ
deriving DecidableEq

namespace FVector2D

/-- The vector difference, `operator-`. -/
def sub (a b : FVector2D) : FVector2D := ⟨a.X - b.X, a.Y - b.Y⟩

/-- The squared length, `FVector2D::SizeSquared`. -/
def SizeSquared (v : FVector2D) : ℚ := v.X * v.X + v.Y * v.Y

/-- The scalar product, `FVector2D::DotProduct`. -/
def DotProduct (a b : FVector2D) : ℚ := a.X * b.X + a.Y * b.Y

/-- The test `v.Size() > d`. -/
def SizeGt (v : FVector2D) (d : ℚ) : Prop := d < 0 ∨ d * d < v.SizeSquared

/-- The test `v.Size() < d`. -/
def SizeLt (v : FVector2D) (d : ℚ) : Prop := 0 < d ∧ v.SizeSquared < d * d

/-- The test `v.Size() >= d`. -/
def SizeGe (v : FVector2D) (d : ℚ) : Prop := d ≤ 0 ∨ d * d ≤ v.SizeSquared

/-- The test `v.Size() <= d`. -/
def SizeLe (v : FVector2D) (d : ℚ) : Prop := 0 ≤ d ∧ v.SizeSquared ≤ d * d

instance (v : FVector2D) (d : ℚ) : Decidable (SizeGt v d) := by
  unfold SizeGt; exact inferInstance

instance (v : FVector2D) (d : ℚ) : Decidable (SizeLt v d) := by
  unfold SizeLt; exact inferInstance

instance (v : FVector2D) (d : ℚ) : Decidable (SizeGe v d) := by
  unfold SizeGe; exact inferInstance

instance (v : FVector2D) (d : ℚ) : Decidable (SizeLe v d) := by
  unfold SizeLe; exact inferInstance

/-- The engine constant `SMALL_NUMBER`, the default tolerance of `Normalize`. -/
def SMALL_NUMBER : ℚ := 1 / 100000000

/-- The test `Dot < m` of `Tick`, where `Dot` is the scalar product of `v1` and `v2`
after `FVector2D::Normalize` was applied to each. `Normalize` scales a vector to length
one when its squared length exceeds `SMALL_NUMBER` and sets it to zero otherwise, so
`Dot` is `v1·v2 / sqrt(|v1|²|v2|²)` in the first case and `0` in the second. -/
def NormalizedDotLt (v1 v2 : FVector2D) (m : ℚ) : Prop :=
  if SMALL_NUMBER < v1.SizeSquared ∧ SMALL_NUMBER < v2.SizeSquared then
    if 0 ≤ m then
      DotProduct v1 v2 < 0 ∨
        DotProduct v1 v2 * DotProduct v1 v2 < m * m * (v1.SizeSquared * v2.SizeSquared)
    else
      DotProduct v1 v2 < 0 ∧
        m * m * (v1.SizeSquared * v2.SizeSquared) < DotProduct v1 v2 * DotProduct v1 v2
  else 0 < m

instance (v1 v2 : FVector2D) (m : ℚ) : Decidable (NormalizedDotLt v1 v2 m) := by
  unfold NormalizedDotLt; exact inferInstance

end FVector2D

/-- One trick point: the configured angle in degrees, the joystick position computed
from it by `CustomBeginPlay`, and whether the point must be reached while dragging. -/
structure TrickPoint where
  Angle : ℚ
  DesiredPosition : FVector2D
  bDrag : Bool
deriving DecidableEq

/-- A trick: its name and its ordered trick points. -/
structure Trick where
  TrickName : String
  Points : List TrickPoint
deriving DecidableEq

/-- The members of the character that `Tick` only reads: the three thresholds set in the
constructor, the trick library `Tricks`, and whether `CustomBeginPlay` found a
controller (`SkatePC` is non-null). -/
structure Character where
  MinimumRequiredDot : ℚ
  TrickPointExecDistance : ℚ
  Deadzone : ℚ
  Tricks : List Trick
  SkatePC : Bool
deriving DecidableEq

/-- The members of the character that the matcher updates. -/
structure MatchState where
  TrickQueue : List Trick
  TrickPointIndex : Nat
  LastTrickLocation : FVector2D
  bIsDragging : Bool
  bReturningFromTrick : Bool
  EligibleTrick : Trick
  PreviousLocation : FVector2D
deriving DecidableEq

/-- How a call ends: normally with a new state, with an array index out of range, or
without leaving the sibling-removal loop. -/
inductive Outcome where
  | ok (s : MatchState)
  | outOfBounds
  | diverged
deriving DecidableEq

/-- The thresholds assigned by the constructor `ASkateProjectCharacter()`:
`MinimumRequiredDot = 0.6`, `TrickPointExecDistance = 0.2`, `Deadzone = 0.05`. -/
def defaultCharacter (tricks : List Trick) (pc : Bool) : Character :=
  { MinimumRequiredDot := 3 / 5
    TrickPointExecDistance := 1 / 5
    Deadzone := 1 / 20
    Tricks := tricks
    SkatePC := pc }

/-- The matcher members as the constructor leaves them: `LastTrickLocation = (0, 0)`,
`PreviousLocation = (0.1, 0)`, `bIsDragging = false`, the other members zero or empty. -/
def constructed : MatchState :=
  { TrickQueue := []
    TrickPointIndex := 0
    LastTrickLocation := ⟨0, 0⟩
    bIsDragging := false
    bReturningFromTrick := false
    EligibleTrick := ⟨"", []⟩
    PreviousLocation := ⟨1 / 10, 0⟩ }

/-- The method `CustomBeginPlay`: records whether a controller was found, recomputes the desired
position of every trick point from its angle, and refills the trick queue from the
library. The parameter `dir` stands for the engine's
`(FMath::Cos(DegreesToRadians a), FMath::Sin(DegreesToRadians a))`. -/
def CustomBeginPlay (dir : ℚ → FVector2D) (controller : Bool) (c : Character)
    (s : MatchState) : Character × MatchState :=
  let tricks := c.Tricks.map fun t =>
    { t with Points := t.Points.map fun p => { p with DesiredPosition := dir p.Angle } }
  ({ c with Tricks := tricks, SkatePC := controller }, { s with TrickQueue := tricks })

/-- The method `AttemptExecuteTrick`: the unconditional reset of the matcher. -/
def AttemptExecuteTrick (c : Character) (s : MatchState) : MatchState :=
  { s with
    TrickPointIndex := 0
    LastTrickLocation := ⟨0, 0⟩
    bIsDragging := true
    bReturningFromTrick := true
    TrickQueue := c.Tricks
    EligibleTrick := { s.EligibleTrick with Points := [] } }

/-- The method `RemoveTrick(index)`: `TrickQueue.RemoveAt(index)`, then `AttemptExecuteTrick` when
the queue has become empty. -/
def RemoveTrick (c : Character) (s : MatchState) (index : Nat) : Outcome :=
  if index < s.TrickQueue.length then
    let s1 := { s with TrickQueue := s.TrickQueue.eraseIdx index }
    if s1.TrickQueue.length = 0 then .ok (AttemptExecuteTrick c s1) else .ok s1
  else .outOfBounds

/-- The loop of `Tick` that removes the tricks with as many points as the eligible one:
`for (j; j < TrickQueue.Num() + TricksRemoved; ++j)`, testing and removing at index
`j - TricksRemoved`. `TricksRemoved` never exceeds `j`, so the index is never negative. -/
def removeSiblings (c : Character) : Nat → MatchState → Nat → Nat → Outcome
  | 0, s, j, removed => if j < s.TrickQueue.length + removed then .diverged else .ok s
  | fuel + 1, s, j, removed =>
    if j < s.TrickQueue.length + removed then
      match s.TrickQueue[j - removed]? with
      | none => .outOfBounds
      | some t =>
        if t.Points.length = s.TrickPointIndex then
          match RemoveTrick c s (j - removed) with
          | .ok s1 => removeSiblings c fuel s1 (j + 1) (removed + 1)
          | f => f
        else removeSiblings c fuel s (j + 1) removed
    else .ok s

/-- The argument of `SkatePC->UpdateTrickLocation(TrickQueue[0].Points[1].DesiredPosition)`,
evaluated only when a controller is attached. -/
def UpdateTrickLocation (c : Character) (s : MatchState) : Outcome :=
  if c.SkatePC = true then
    match s.TrickQueue[0]? with
    | none => .outOfBounds
    | some t =>
      match t.Points[1]? with
      | none => .outOfBounds
      | some _ => .ok s
  else .ok s

/-- The elimination test of `Tick` on the point `p` a candidate has at `TrickPointIndex`:
a point was already reached, the point needs drag while the player is not dragging or
the analog heads away from it, and the analog is no longer close to the last trick
location. -/
def Eliminated (c : Character) (s : MatchState) (analog : FVector2D) (p : TrickPoint) : Prop :=
  s.TrickPointIndex ≠ 0 ∧
    ((p.bDrag = true ∧ s.bIsDragging = false) ∨
      FVector2D.NormalizedDotLt (analog.sub s.LastTrickLocation)
        (p.DesiredPosition.sub s.LastTrickLocation) c.MinimumRequiredDot) ∧
    FVector2D.SizeGe (analog.sub s.LastTrickLocation) (c.TrickPointExecDistance * 2)

instance (c : Character) (s : MatchState) (analog : FVector2D) (p : TrickPoint) :
    Decidable (Eliminated c s analog p) := by
  unfold Eliminated; exact inferInstance

/-- The point-reached test of `Tick`:
`(AnalogRaw - DesiredPosition).Size() <= TrickPointExecDistance`. -/
def Reached (c : Character) (analog : FVector2D) (p : TrickPoint) : Prop :=
  FVector2D.SizeLe (analog.sub p.DesiredPosition) c.TrickPointExecDistance

instance (c : Character) (analog : FVector2D) (p : TrickPoint) :
    Decidable (Reached c analog p) := by
  unfold Reached; exact inferInstance

/-- The body of `if (... <= TrickPointExecDistance)` in `Tick`, for the candidate `t` at
queue index `i` whose point `p` at `TrickPointIndex` was reached. -/
def reachPoint (c : Character) (fuel : Nat) (s : MatchState) (i : Nat) (t : Trick)
    (p : TrickPoint) : Outcome :=
  let s1 := { s with
    TrickPointIndex := s.TrickPointIndex + 1
    LastTrickLocation := p.DesiredPosition }
  let r :=
    if s1.TrickPointIndex = t.Points.length then
      match RemoveTrick c { s1 with EligibleTrick := t } i with
      | .ok s2 => removeSiblings c fuel s2 0 0
      | f => f
    else .ok s1
  match r with
  | .ok s3 => UpdateTrickLocation c s3
  | f => f

/-- The outer `for` loop of `Tick` from queue index `i` on; the first argument is the
part of the queue from index `i`. The queue only changes in an iteration that ends with
`break`. -/
def scanQueue (c : Character) (fuel : Nat) (analog : FVector2D) (s : MatchState) :
    List Trick → Nat → Outcome
  | [], _ => .ok s
  | t :: rest, i =>
    match t.Points[s.TrickPointIndex]? with
    | none => .outOfBounds
    | some p =>
      if Eliminated c s analog p then RemoveTrick c s i
      else if Reached c analog p then reachPoint c fuel s i t p
      else scanQueue c fuel analog s rest (i + 1)

/-- The drag update of `Tick`:
`if (bIsDragging && AnalogRaw.Size() < 0.9f) bIsDragging = false;`. -/
def updateDrag (s : MatchState) (analog : FVector2D) : MatchState :=
  if s.bIsDragging = true ∧ FVector2D.SizeLt analog (9 / 10) then
    { s with bIsDragging := false }
  else s

/-- The start of an ungated `Tick`: `bReturningFromTrick = false`, then the drag update. -/
def startFrame (s : MatchState) (analog : FVector2D) : MatchState :=
  updateDrag { s with bReturningFromTrick := false } analog

/-- The end of `Tick`, after the outer loop: `PreviousLocation = AnalogRaw`. -/
def endFrame (analog : FVector2D) : Outcome → Outcome
  | .ok s => .ok { s with PreviousLocation := analog }
  | f => f

/-- The gate of `Tick`: the player executed a trick and the analog has not yet returned
to the deadzone. -/
def Gated (c : Character) (s : MatchState) (analog : FVector2D) : Prop :=
  s.bReturningFromTrick = true ∧ FVector2D.SizeGt analog c.Deadzone

instance (c : Character) (s : MatchState) (analog : FVector2D) : Decidable (Gated c s analog) := by
  unfold Gated; exact inferInstance

/-- The method `Tick` with `AnalogRaw = analog`. The fuel of the sibling-removal loop is the length
of the queue plus the length of the library plus one, which the loop only exceeds when it
never ends. -/
def Tick (c : Character) (s : MatchState) (analog : FVector2D) : Outcome :=
  if Gated c s analog then .ok s
  else
    endFrame analog
      (scanQueue c (s.TrickQueue.length + c.Tricks.length + 1) analog (startFrame s analog)
        (startFrame s analog).TrickQueue 0)

/-! ## Predicates used in the statements -/

/-- A candidate passes an iteration of the outer loop: it has a point at the current
index, is not eliminated and has not reached that point. -/
def Passes (c : Character) (s : MatchState) (analog : FVector2D) (t : Trick) : Prop :=
  ∃ p, t.Points[s.TrickPointIndex]? = some p ∧ ¬ Eliminated c s analog p ∧ ¬ Reached c analog p

/-- The reset state: what `AttemptExecuteTrick` establishes. -/
def IsReset (c : Character) (s : MatchState) : Prop :=
  s.TrickPointIndex = 0 ∧ s.bReturningFromTrick = true ∧ s.TrickQueue = c.Tricks

/-- Every trick of the library has at least one point. -/
def LibraryValid (c : Character) : Prop := ∀ t ∈ c.Tricks, t.Points.length ≠ 0

/-- The state after `AttemptExecuteTrick` ran within a call: the point index is 0, the
flag `bReturningFromTrick` is set, and the queue is the library when that is valid (the
sibling-removal loop goes on to remove the tricks without points of the refilled queue). -/
def WasReset (c : Character) (s : MatchState) : Prop :=
  s.TrickPointIndex = 0 ∧ s.bReturningFromTrick = true ∧
    (LibraryValid c → s.TrickQueue = c.Tricks)

/-- The argument of the controller update can be evaluated on the queue `q`: no
controller is attached, or the first trick of `q` has a point at index 1. -/
def TrickLocationDefined (c : Character) (q : List Trick) : Prop :=
  c.SkatePC = true → ∃ t, q[0]? = some t ∧ 1 < t.Points.length

/-- The tricks of `q` whose number of points differs from `n`, in order. -/
def withoutLength (n : Nat) (q : List Trick) : List Trick :=
  q.filter fun t => decide (t.Points.length ≠ n)

/-! ## Test data -/

/-- The direction of the angles used in the examples. -/
def dirTable (a : ℚ) : FVector2D :=
  if a = 90 then ⟨0, 1⟩ else if a = 180 then ⟨-1, 0⟩ else if a = 270 then ⟨0, -1⟩ else ⟨1, 0⟩

/-- A trick point without drag at angle `a`. -/
def pointAt (a : ℚ) : TrickPoint := ⟨a, dirTable a, false⟩

/-- The trick of the spec's scenario: points at 0° and 90°. -/
def kickflip : Trick := ⟨"Kickflip", [pointAt 0, pointAt 90]⟩

/-- A trick with three points, at 0°, 90° and 180°. -/
def treflip : Trick := ⟨"Treflip", [pointAt 0, pointAt 90, pointAt 180]⟩

/-- A trick with two points, at 0° and 180°. -/
def shuvit : Trick := ⟨"Shuvit", [pointAt 0, pointAt 180]⟩

/-- A library entry without trick points. -/
def emptyTrick : Trick := ⟨"Empty", []⟩

/-- The state after `CustomBeginPlay` for the library `tricks`. -/
def initial (tricks : List Trick) : MatchState := { constructed with TrickQueue := tricks }

/-- The state with queue `q` in which the point at 0° was reached. -/
def afterFirstPoint (q : List Trick) : MatchState :=
  { initial q with TrickPointIndex := 1, LastTrickLocation := ⟨1, 0⟩ }

/-- A trick with two points, at 0° and 270°. -/
def varial : Trick := ⟨"Varial", [pointAt 0, pointAt 270]⟩

/-- A trick with a single point, at 0°. -/
def ollie : Trick := ⟨"Ollie", [pointAt 0]⟩

/-- A trick with a single point, at 90°. -/
def nollie : Trick := ⟨"Nollie", [pointAt 90]⟩

/-! ## Reachable states and the specifications compared with the code -/

/-- The states the matcher can be in after the state `s0`: any sequence of `Tick` calls
that return, with any analog sample, and of `AttemptExecuteTrick` calls. -/
inductive Reachable (c : Character) (s0 : MatchState) : MatchState → Prop where
  | start : Reachable c s0 s0
  | tick (s s' : MatchState) (analog : FVector2D) :
      Reachable c s0 s → Tick c s analog = .ok s' → Reachable c s0 s'
  | execute (s : MatchState) : Reachable c s0 s → Reachable c s0 (AttemptExecuteTrick c s)

/-- The sibling removal as a single filter pass, in the words of the specification: when
some candidate has a point count different from the point index, the queue is filtered to
the candidates whose point count differs from it; when none has, the result is the
attempt-reset state. -/
def siblingFilterSpec (c : Character) (s : MatchState) : MatchState :=
  if ∃ t ∈ s.TrickQueue, t.Points.length ≠ s.TrickPointIndex then
    { s with TrickQueue := withoutLength s.TrickPointIndex s.TrickQueue }
  else AttemptExecuteTrick c s

/-- The three branches after `TrickPointIndex++` in the reached branch of `Tick`. -/
inductive ReachBranch where
  | eligible
  | defensive
  | advance
deriving DecidableEq

/-- The branch `Tick` takes for the candidate `t` after the increment:
`if (TrickPointIndex == Points.Num())`, `else if (TrickPointIndex > Points.Num())`, or
neither. The argument `s` is the state before the increment. -/
def reachBranch (s : MatchState) (t : Trick) : ReachBranch :=
  if s.TrickPointIndex + 1 = t.Points.length then .eligible
  else if s.TrickPointIndex + 1 > t.Points.length then .defensive
  else .advance

/-! ## Lemmas on `RemoveTrick` -/

theorem AttemptExecuteTrick_queue (c : Character) (s : MatchState) (q : List Trick) :
    AttemptExecuteTrick c { s with TrickQueue := q } = AttemptExecuteTrick c s := rfl

theorem RemoveTrick_keep (c : Character) (s : MatchState) (i : Nat)
    (hi : i < s.TrickQueue.length) (hne : s.TrickQueue.eraseIdx i ≠ []) :
    RemoveTrick c s i = .ok { s with TrickQueue := s.TrickQueue.eraseIdx i } := by
  unfold RemoveTrick
  simp [hi, hne]

theorem RemoveTrick_last (c : Character) (s : MatchState) (i : Nat)
    (hi : i < s.TrickQueue.length) (he : s.TrickQueue.eraseIdx i = []) :
    RemoveTrick c s i = .ok (AttemptExecuteTrick c s) := by
  unfold RemoveTrick
  simp [hi, he, AttemptExecuteTrick]

theorem RemoveTrick_cases (c : Character) (s s1 : MatchState) (i : Nat)
    (h : RemoveTrick c s i = .ok s1) :
    s1 = { s with TrickQueue := s.TrickQueue.eraseIdx i } ∨ s1 = AttemptExecuteTrick c s := by
  unfold RemoveTrick at h
  by_cases hi : i < s.TrickQueue.length
  · by_cases he : (s.TrickQueue.eraseIdx i).length = 0
    · right
      simp only [hi, he, if_true] at h
      injection h with h
      rw [← h]
      rfl
    · left
      simp only [hi, he, if_true, if_false] at h
      injection h with h
      exact h.symm
  · simp only [hi, if_false] at h
    cases h

theorem eraseIdx_middle (pre post : List Trick) (t : Trick) :
    (pre ++ t :: post).eraseIdx pre.length = pre ++ post := by
  induction pre with
  | nil => rfl
  | cons a l ih => simp [List.eraseIdx, ih]

theorem getElem?_middle (pre post : List Trick) (t : Trick) :
    (pre ++ t :: post)[pre.length]? = some t := by
  induction pre with
  | nil => simp
  | cons a l ih => simpa using ih

/-! ## The outer loop -/

theorem scanQueue_skip (c : Character) (fuel : Nat) (analog : FVector2D) (s : MatchState) :
    ∀ (pre post : List Trick) (i : Nat), (∀ t ∈ pre, Passes c s analog t) →
      scanQueue c fuel analog s (pre ++ post) i =
        scanQueue c fuel analog s post (i + pre.length) := by
  intro pre
  induction pre with
  | nil => intro post i _; rfl
  | cons t l ih =>
    intro post i h
    obtain ⟨p, hp, he, hr⟩ := h t (List.mem_cons_self t l)
    have hl : ∀ u ∈ l, Passes c s analog u := fun u hu => h u (List.mem_cons_of_mem t hu)
    rw [List.cons_append]
    simp only [scanQueue, hp, he, hr, if_false]
    rw [ih post (i + 1) hl]
    simp only [List.length_cons]
    congr 1
    omega

/-! ## The sibling-removal loop -/

theorem removeSiblings_filter (c : Character) :
    ∀ (post pre : List Trick) (s : MatchState) (fuel j removed : Nat),
      s.TrickQueue = pre ++ post → removed ≤ j → j - removed = pre.length →
      post.length ≤ fuel →
      (post = [] ∨ pre ≠ [] ∨ ∃ t ∈ post, t.Points.length ≠ s.TrickPointIndex) →
      removeSiblings c fuel s j removed =
        .ok { s with TrickQueue :=
          pre ++ post.filter fun t => decide (t.Points.length ≠ s.TrickPointIndex) } := by
  intro post
  induction post with
  | nil =>
    intro pre s fuel j removed hq hle hj _ _
    have hs : ({ s with TrickQueue := pre ++ [] } : MatchState) = s := by
      cases s
      simp at hq
      simp [hq]
    rw [List.filter_nil, hs]
    have hc : ¬ j < s.TrickQueue.length + removed := by
      rw [hq]; simp; omega
    cases fuel <;> simp [removeSiblings, hc]
  | cons t rest ih =>
    intro pre s fuel j removed hq hle hj hfuel hex
    obtain ⟨f, rfl⟩ : ∃ f, fuel = f + 1 := ⟨fuel - 1, by simp at hfuel; omega⟩
    have hc : j < s.TrickQueue.length + removed := by
      rw [hq]; simp; omega
    have hget : s.TrickQueue[j - removed]? = some t := by
      rw [hq, hj]; exact getElem?_middle pre rest t
    have herase : s.TrickQueue.eraseIdx (j - removed) = pre ++ rest := by
      rw [hq, hj]; exact eraseIdx_middle pre rest t
    have hlt : j - removed < s.TrickQueue.length := by
      rw [hq, hj]; simp
    simp only [removeSiblings, hc, if_true, hget]
    by_cases hlen : t.Points.length = s.TrickPointIndex
    · have hne : pre ++ rest ≠ [] := by
        rcases hex with h | h | ⟨u, hu, hu2⟩
        · cases h
        · simp [h]
        · rcases List.mem_cons.mp hu with rfl | hu'
          · exact absurd hlen hu2
          · intro h
            have : rest = [] := (List.append_eq_nil.mp h).2
            rw [this] at hu'
            cases hu'
      have hrm := RemoveTrick_keep c s (j - removed) hlt (by rw [herase]; exact hne)
      rw [herase] at hrm
      simp only [hlen, if_true, hrm]
      have hex2 : rest = [] ∨ pre ≠ [] ∨ ∃ u ∈ rest, u.Points.length ≠ s.TrickPointIndex := by
        rcases hex with h | h | ⟨u, hu, hu2⟩
        · cases h
        · exact Or.inr (Or.inl h)
        · rcases List.mem_cons.mp hu with rfl | hu'
          · exact absurd hlen hu2
          · exact Or.inr (Or.inr ⟨u, hu', hu2⟩)
      have := ih pre { s with TrickQueue := pre ++ rest } f (j + 1) (removed + 1) rfl
        (by omega) (by omega) (by simp at hfuel; omega) hex2
      rw [this]
      simp [List.filter, hlen]
    · simp only [hlen, if_false]
      have := ih (pre ++ [t]) s f (j + 1) removed (by rw [hq]; simp)
        (by omega) (by simp; omega) (by simp at hfuel; omega) (Or.inr (Or.inl (by simp)))
      rw [this]
      simp [List.filter, hlen]

/-! ## The frame around the outer loop -/

theorem updateDrag_fields (s : MatchState) (analog : FVector2D) :
    (updateDrag s analog).TrickQueue = s.TrickQueue ∧
      (updateDrag s analog).TrickPointIndex = s.TrickPointIndex ∧
      (updateDrag s analog).LastTrickLocation = s.LastTrickLocation ∧
      (updateDrag s analog).bReturningFromTrick = s.bReturningFromTrick ∧
      (updateDrag s analog).EligibleTrick = s.EligibleTrick ∧
      (updateDrag s analog).PreviousLocation = s.PreviousLocation := by
  unfold updateDrag
  split <;> simp

theorem startFrame_queue (s : MatchState) (analog : FVector2D) :
    (startFrame s analog).TrickQueue = s.TrickQueue :=
  (updateDrag_fields _ analog).1

theorem startFrame_index (s : MatchState) (analog : FVector2D) :
    (startFrame s analog).TrickPointIndex = s.TrickPointIndex :=
  (updateDrag_fields _ analog).2.1

theorem startFrame_last (s : MatchState) (analog : FVector2D) :
    (startFrame s analog).LastTrickLocation = s.LastTrickLocation :=
  (updateDrag_fields _ analog).2.2.1

theorem startFrame_returning (s : MatchState) (analog : FVector2D) :
    (startFrame s analog).bReturningFromTrick = false :=
  (updateDrag_fields _ analog).2.2.2.1

theorem startFrame_eligible (s : MatchState) (analog : FVector2D) :
    (startFrame s analog).EligibleTrick = s.EligibleTrick :=
  (updateDrag_fields _ analog).2.2.2.2.1

theorem Tick_ungated (c : Character) (s : MatchState) (analog : FVector2D)
    (hg : ¬ Gated c s analog) :
    Tick c s analog =
      endFrame analog
        (scanQueue c (s.TrickQueue.length + c.Tricks.length + 1) analog (startFrame s analog)
          s.TrickQueue 0) := by
  unfold Tick
  rw [if_neg hg, startFrame_queue]

theorem UpdateTrickLocation_ok (c : Character) (s : MatchState)
    (h : TrickLocationDefined c s.TrickQueue) : UpdateTrickLocation c s = .ok s := by
  unfold UpdateTrickLocation
  by_cases hpc : c.SkatePC = true
  · obtain ⟨t, ht, hlen⟩ := h hpc
    obtain ⟨x, hx⟩ : ∃ x, t.Points[1]? = some x :=
      ⟨t.Points[1], List.getElem?_eq_getElem hlen⟩
    simp [hpc, ht, hx]
  · simp [hpc]

/-- The outer loop at the first candidate that does not pass, when that candidate is
eliminated: the loop ends with `RemoveTrick` at its index. -/
theorem scanQueue_eliminated (c : Character) (fuel : Nat) (analog : FVector2D) (s : MatchState)
    (pre post : List Trick) (t : Trick) (p : TrickPoint)
    (hpre : ∀ u ∈ pre, Passes c s analog u)
    (hp : t.Points[s.TrickPointIndex]? = some p) (he : Eliminated c s analog p) :
    scanQueue c fuel analog s (pre ++ t :: post) 0 = RemoveTrick c s pre.length := by
  rw [scanQueue_skip c fuel analog s pre (t :: post) 0 hpre]
  simp [scanQueue, hp, he]

/-- The outer loop at the first candidate that does not pass, when that candidate has
reached its point. -/
theorem scanQueue_reached (c : Character) (fuel : Nat) (analog : FVector2D) (s : MatchState)
    (pre post : List Trick) (t : Trick) (p : TrickPoint)
    (hpre : ∀ u ∈ pre, Passes c s analog u)
    (hp : t.Points[s.TrickPointIndex]? = some p) (he : ¬ Eliminated c s analog p)
    (hr : Reached c analog p) :
    scanQueue c fuel analog s (pre ++ t :: post) 0 = reachPoint c fuel s pre.length t p := by
  rw [scanQueue_skip c fuel analog s pre (t :: post) 0 hpre]
  simp [scanQueue, hp, he, hr]

/-- The reached branch for a candidate at its last point, when the queue holds a trick
with another number of points: the candidate becomes eligible and the queue loses the
tricks with as many points. -/
theorem reachPoint_eligible (c : Character) (fuel : Nat) (s : MatchState)
    (pre post : List Trick) (t : Trick) (p : TrickPoint)
    (hq : s.TrickQueue = pre ++ t :: post)
    (hlen : t.Points.length = s.TrickPointIndex + 1)
    (hother : ∃ u ∈ pre ++ post, u.Points.length ≠ s.TrickPointIndex + 1)
    (hfuel : (pre ++ post).length ≤ fuel)
    (hui : TrickLocationDefined c (withoutLength (s.TrickPointIndex + 1) (pre ++ post))) :
    reachPoint c fuel s pre.length t p =
      .ok { s with
        TrickPointIndex := s.TrickPointIndex + 1
        LastTrickLocation := p.DesiredPosition
        EligibleTrick := t
        TrickQueue := withoutLength (s.TrickPointIndex + 1) (pre ++ post) } := by
  have hne : pre ++ post ≠ [] := by
    obtain ⟨u, hu, _⟩ := hother
    intro h
    rw [h] at hu
    cases hu
  unfold reachPoint
  simp only [hlen, if_true]
  rw [RemoveTrick_keep c _ pre.length (by simp [hq])
    (by simp only [hq, eraseIdx_middle]; exact hne)]
  simp only [hq, eraseIdx_middle]
  rw [removeSiblings_filter c (pre ++ post) [] _ fuel 0 0 (by simp) (Nat.le_refl 0) (by simp)
    hfuel (Or.inr (Or.inr hother))]
  simp only [List.nil_append]
  exact UpdateTrickLocation_ok c _ hui

/-- More fuel does not change a result of the sibling-removal loop other than
`diverged`: the fuel only cuts off runs that have not ended yet. -/
theorem removeSiblings_fuel_succ (c : Character) :
    ∀ (fuel : Nat) (s : MatchState) (j removed : Nat),
      removeSiblings c fuel s j removed ≠ .diverged →
      removeSiblings c (fuel + 1) s j removed = removeSiblings c fuel s j removed := by
  intro fuel
  induction fuel with
  | zero =>
    intro s j removed h
    by_cases hc : j < s.TrickQueue.length + removed
    · simp [removeSiblings, hc] at h
    · simp [removeSiblings, hc]
  | succ f ih =>
    intro s j removed h
    rw [removeSiblings.eq_def c (f + 1 + 1)]
    rw [removeSiblings.eq_def c (f + 1)] at h ⊢
    simp only at h ⊢
    by_cases hc : j < s.TrickQueue.length + removed
    · simp only [hc, if_true] at h ⊢
      cases hget : s.TrickQueue[j - removed]? with
      | none => rfl
      | some t =>
        simp only [hget] at h ⊢
        by_cases hlen : t.Points.length = s.TrickPointIndex
        · simp only [hlen, if_true] at h ⊢
          cases hrm : RemoveTrick c s (j - removed) with
          | ok s1 =>
            simp only [hrm] at h ⊢
            exact ih s1 (j + 1) (removed + 1) h
          | outOfBounds => rfl
          | diverged => rfl
        · simp only [hlen, if_false] at h ⊢
          exact ih s (j + 1) removed h
    · simp only [hc, if_false]

theorem withoutLength_valid (c : Character) (hv : LibraryValid c) :
    withoutLength 0 c.Tricks = c.Tricks := by
  unfold withoutLength
  rw [List.filter_eq_self]
  intro t ht
  simpa using hv t ht

/-- In the reset state of a valid library the sibling-removal loop removes nothing. -/
theorem removeSiblings_reset (c : Character) (hv : LibraryValid c) (s : MatchState)
    (fuel j removed : Nat) (hq : s.TrickQueue = c.Tricks) (hp : s.TrickPointIndex = 0)
    (hle : removed ≤ j) (hj : j - removed = 0) (hfuel : c.Tricks.length ≤ fuel) :
    removeSiblings c fuel s j removed = .ok s := by
  have hex : c.Tricks = [] ∨ ([] : List Trick) ≠ [] ∨
      ∃ t ∈ c.Tricks, t.Points.length ≠ s.TrickPointIndex := by
    cases hl : c.Tricks with
    | nil => exact Or.inl rfl
    | cons t l =>
      refine Or.inr (Or.inr ⟨t, List.mem_cons_self t l, ?_⟩)
      rw [hp]
      exact hv t (by rw [hl]; exact List.mem_cons_self t l)
  rw [removeSiblings_filter c c.Tricks [] s fuel j removed (by simp [hq]) hle (by simpa using hj)
    hfuel hex]
  have hf : List.filter (fun t => decide (t.Points.length ≠ s.TrickPointIndex)) c.Tricks =
      c.Tricks := by
    rw [hp]
    exact withoutLength_valid c hv
  rw [List.nil_append, hf]
  cases s
  simp at hq
  simp [hq]

/-- When every trick of the queue has as many points as the current index, the
sibling-removal loop empties the queue and ends in the reset state. -/
theorem removeSiblings_exhausted (c : Character) (hv : LibraryValid c) :
    ∀ (q : List Trick) (s : MatchState) (fuel j removed : Nat),
      q ≠ [] → s.TrickQueue = q → (∀ u ∈ q, u.Points.length = s.TrickPointIndex) →
      removed ≤ j → j - removed = 0 → q.length + c.Tricks.length ≤ fuel →
      removeSiblings c fuel s j removed = .ok (AttemptExecuteTrick c s) := by
  intro q
  induction q with
  | nil => intro s fuel j removed h; exact absurd rfl h
  | cons t rest ih =>
    intro s fuel j removed _ hq hall hle hj hfuel
    obtain ⟨f, rfl⟩ : ∃ f, fuel = f + 1 := ⟨fuel - 1, by simp at hfuel; omega⟩
    have hc : j < s.TrickQueue.length + removed := by
      rw [hq]; simp; omega
    have hget : s.TrickQueue[j - removed]? = some t := by
      rw [hq, hj]; simp
    have hlen : t.Points.length = s.TrickPointIndex := hall t (List.mem_cons_self t rest)
    have herase : s.TrickQueue.eraseIdx (j - removed) = rest := by
      rw [hq, hj]; rfl
    have hlt : j - removed < s.TrickQueue.length := by
      rw [hq, hj]; simp
    simp only [removeSiblings, hc, if_true, hget, hlen]
    cases rest with
    | nil =>
      simp only [RemoveTrick_last c s (j - removed) hlt herase]
      exact removeSiblings_reset c hv (AttemptExecuteTrick c s) f (j + 1) (removed + 1) rfl rfl
        (by omega) (by omega) (by simp at hfuel; omega)
    | cons t2 rest2 =>
      have hrm := RemoveTrick_keep c s (j - removed) hlt (by rw [herase]; simp)
      rw [herase] at hrm
      have := ih { s with TrickQueue := t2 :: rest2 } f (j + 1) (removed + 1)
        (by simp) rfl
        (fun u hu => hall u (List.mem_cons_of_mem t hu)) (by omega) (by omega)
        (by simp at hfuel ⊢; omega)
      simp only [hrm, this]
      rfl

/-- The reached branch for a candidate at its last point, when every other trick of the
queue has as many points: the queue runs empty and `AttemptExecuteTrick` resets the
matcher within the same call. -/
theorem reachPoint_exhausted (c : Character) (hv : LibraryValid c) (fuel : Nat) (s : MatchState)
    (pre post : List Trick) (t : Trick) (p : TrickPoint)
    (hq : s.TrickQueue = pre ++ t :: post)
    (hlen : t.Points.length = s.TrickPointIndex + 1)
    (hall : ∀ u ∈ pre ++ post, u.Points.length = s.TrickPointIndex + 1)
    (hfuel : (pre ++ post).length + c.Tricks.length ≤ fuel)
    (hui : TrickLocationDefined c c.Tricks) :
    reachPoint c fuel s pre.length t p =
      .ok { AttemptExecuteTrick c s with EligibleTrick := ⟨t.TrickName, []⟩ } := by
  unfold reachPoint
  simp only [hlen, if_true]
  by_cases hrest : pre ++ post = []
  · rw [RemoveTrick_last c _ pre.length (by simp [hq])
      (by simp only [hq, eraseIdx_middle]; exact hrest)]
    dsimp only
    rw [removeSiblings_reset c hv _ fuel 0 0 rfl rfl (Nat.le_refl 0) rfl (by omega)]
    exact UpdateTrickLocation_ok c _ hui
  · rw [RemoveTrick_keep c _ pre.length (by simp [hq])
      (by simp only [hq, eraseIdx_middle]; exact hrest)]
    simp only [hq, eraseIdx_middle]
    rw [removeSiblings_exhausted c hv (pre ++ post) _ fuel 0 0 hrest rfl
      hall (Nat.le_refl 0) rfl hfuel]
    exact UpdateTrickLocation_ok c _ hui

theorem eliminated_startFrame (c : Character) (s : MatchState) (analog : FVector2D)
    (p : TrickPoint) :
    Eliminated c (startFrame s analog) analog p ↔
      s.TrickPointIndex ≠ 0 ∧
        ((p.bDrag = true ∧ (startFrame s analog).bIsDragging = false) ∨
          FVector2D.NormalizedDotLt (analog.sub s.LastTrickLocation)
            (p.DesiredPosition.sub s.LastTrickLocation) c.MinimumRequiredDot) ∧
        FVector2D.SizeGe (analog.sub s.LastTrickLocation) (c.TrickPointExecDistance * 2) := by
  unfold Eliminated
  rw [startFrame_index, startFrame_last]

/-- An ungated `Tick` whose first candidate that does not pass reaches its last point,
while the queue holds a trick with another number of points. -/
theorem Tick_eligible (c : Character) (s : MatchState) (analog : FVector2D)
    (pre post : List Trick) (t : Trick) (p : TrickPoint)
    (hg : ¬ Gated c s analog)
    (hq : s.TrickQueue = pre ++ t :: post)
    (hpre : ∀ u ∈ pre, Passes c (startFrame s analog) analog u)
    (hp : t.Points[s.TrickPointIndex]? = some p)
    (he : ¬ Eliminated c (startFrame s analog) analog p)
    (hr : Reached c analog p)
    (hlen : t.Points.length = s.TrickPointIndex + 1)
    (hother : ∃ u ∈ pre ++ post, u.Points.length ≠ s.TrickPointIndex + 1)
    (hui : TrickLocationDefined c (withoutLength (s.TrickPointIndex + 1) (pre ++ post))) :
    Tick c s analog =
      .ok { startFrame s analog with
        TrickPointIndex := s.TrickPointIndex + 1
        LastTrickLocation := p.DesiredPosition
        EligibleTrick := t
        TrickQueue := withoutLength (s.TrickPointIndex + 1) (pre ++ post)
        PreviousLocation := analog } := by
  have hi := startFrame_index s analog
  rw [Tick_ungated c s analog hg, hq,
    scanQueue_reached c _ analog _ pre post t p hpre (by rw [hi]; exact hp) he hr,
    reachPoint_eligible c _ _ pre post t p (by rw [startFrame_queue]; exact hq)
      (by rw [hi]; exact hlen) (by rw [hi]; exact hother) (by simp; omega)
      (by rw [hi]; exact hui)]
  simp only [endFrame, hi]

/-- An ungated `Tick` whose first candidate that does not pass reaches its last point,
while every other trick of the queue has as many points. -/
theorem Tick_exhausted (c : Character) (s : MatchState) (analog : FVector2D)
    (pre post : List Trick) (t : Trick) (p : TrickPoint)
    (hv : LibraryValid c)
    (hg : ¬ Gated c s analog)
    (hq : s.TrickQueue = pre ++ t :: post)
    (hpre : ∀ u ∈ pre, Passes c (startFrame s analog) analog u)
    (hp : t.Points[s.TrickPointIndex]? = some p)
    (he : ¬ Eliminated c (startFrame s analog) analog p)
    (hr : Reached c analog p)
    (hlen : t.Points.length = s.TrickPointIndex + 1)
    (hall : ∀ u ∈ pre ++ post, u.Points.length = s.TrickPointIndex + 1)
    (hui : TrickLocationDefined c c.Tricks) :
    Tick c s analog =
      .ok { AttemptExecuteTrick c s with
        EligibleTrick := ⟨t.TrickName, []⟩
        PreviousLocation := analog } := by
  have hi := startFrame_index s analog
  rw [Tick_ungated c s analog hg, hq,
    scanQueue_reached c _ analog _ pre post t p hpre (by rw [hi]; exact hp) he hr,
    reachPoint_exhausted c hv _ _ pre post t p (by rw [startFrame_queue]; exact hq)
      (by rw [hi]; exact hlen) (by rw [hi]; exact hall) (by simp; omega) hui]
  have hprev : (startFrame s analog).PreviousLocation = s.PreviousLocation :=
    (updateDrag_fields _ analog).2.2.2.2.2
  simp only [endFrame, AttemptExecuteTrick, hprev]

/-! ## C1: the point-reached check on a candidate at its last point -/

/-- C1, counterexample. The spec's scenario, library `[Kickflip]` with points at 0° and
90°: the first `Tick` with analog (1,0) reaches point 0, the second `Tick` with analog
(0,1) is not gated and its point-reached check fires on Kickflip, whose point count 2 is
`TrickPointIndex + 1`. The state after it has `TrickPointIndex = 0`, not 2, and the
eligible trick has lost its points: the removal emptied the queue and `RemoveTrick` ran
`AttemptExecuteTrick` inside `Tick`. -/
theorem C1_counterexample :
    Tick (defaultCharacter [kickflip] false) (initial [kickflip]) ⟨1, 0⟩ =
        .ok { afterFirstPoint [kickflip] with PreviousLocation := ⟨1, 0⟩ } ∧
      ¬ Gated (defaultCharacter [kickflip] false)
        { afterFirstPoint [kickflip] with PreviousLocation := ⟨1, 0⟩ } ⟨0, 1⟩ ∧
      Reached (defaultCharacter [kickflip] false) ⟨0, 1⟩ (pointAt 90) ∧
      Tick (defaultCharacter [kickflip] false)
          { afterFirstPoint [kickflip] with PreviousLocation := ⟨1, 0⟩ } ⟨0, 1⟩ =
        .ok { TrickQueue := [kickflip]
              TrickPointIndex := 0
              LastTrickLocation := ⟨0, 0⟩
              bIsDragging := true
              bReturningFromTrick := true
              EligibleTrick := ⟨"Kickflip", []⟩
              PreviousLocation := ⟨0, 1⟩ } := by
  refine ⟨?_, ?_, ?_, ?_⟩
  · simp [Tick, Gated, startFrame, updateDrag, endFrame, scanQueue, Eliminated, Reached,
      reachPoint, UpdateTrickLocation, defaultCharacter, initial, afterFirstPoint, constructed,
      kickflip, pointAt, dirTable, FVector2D.sub, FVector2D.SizeLe, FVector2D.SizeSquared]
  · simp [Gated, afterFirstPoint, initial, constructed]
  · norm_num [Reached, pointAt, dirTable, defaultCharacter, FVector2D.sub, FVector2D.SizeLe,
      FVector2D.SizeSquared]
  · simp [Tick, Gated, startFrame, updateDrag, endFrame, scanQueue, Eliminated, Reached,
      reachPoint, RemoveTrick, removeSiblings, AttemptExecuteTrick, UpdateTrickLocation,
      defaultCharacter, initial, afterFirstPoint, constructed,
      kickflip, pointAt, dirTable, FVector2D.sub, FVector2D.SizeLe, FVector2D.SizeGe,
      FVector2D.SizeSquared, FVector2D.NormalizedDotLt, FVector2D.DotProduct,
      FVector2D.SMALL_NUMBER]
    norm_num

/-- C1, amended. In an ungated `Tick` whose point-reached check fires on a candidate `t`
with `TrickPointIndex + 1` points (every candidate before it in the queue passes, and `t`
is not eliminated): when the queue holds a trick with another number of points, the state
after `Tick` has `TrickPointIndex` equal to the point count of `t` and `EligibleTrick`
equal to `t`, points included; when every other trick of the queue has as many points as
`t`, `Tick` itself clears the eligible trick, through `RemoveTrick` and
`AttemptExecuteTrick`: the state after `Tick` has `TrickPointIndex = 0`, an eligible
trick without points and `bReturningFromTrick` set. -/
theorem C1_eligible_kept_unless_queue_runs_empty (c : Character) (s : MatchState)
    (analog : FVector2D) (pre post : List Trick) (t : Trick) (p : TrickPoint)
    (hg : ¬ Gated c s analog)
    (hq : s.TrickQueue = pre ++ t :: post)
    (hpre : ∀ u ∈ pre, Passes c (startFrame s analog) analog u)
    (hp : t.Points[s.TrickPointIndex]? = some p)
    (he : ¬ Eliminated c (startFrame s analog) analog p)
    (hr : Reached c analog p)
    (hlen : t.Points.length = s.TrickPointIndex + 1) :
    ((∃ u ∈ pre ++ post, u.Points.length ≠ t.Points.length) →
        TrickLocationDefined c (withoutLength t.Points.length (pre ++ post)) →
        ∃ s', Tick c s analog = .ok s' ∧ s'.TrickPointIndex = t.Points.length ∧
          s'.EligibleTrick = t ∧ s'.EligibleTrick.Points.length = s.TrickPointIndex + 1 ∧
          s'.bReturningFromTrick = false) ∧
      ((∀ u ∈ pre ++ post, u.Points.length = t.Points.length) → LibraryValid c →
        TrickLocationDefined c c.Tricks →
        ∃ s', Tick c s analog = .ok s' ∧ s'.TrickPointIndex = 0 ∧
          s'.EligibleTrick.Points = [] ∧ s'.bReturningFromTrick = true ∧
          s'.TrickQueue = c.Tricks) := by
  rw [hlen]
  constructor
  · intro hother hui
    refine ⟨_, Tick_eligible c s analog pre post t p hg hq hpre hp he hr hlen hother hui,
      rfl, rfl, hlen, ?_⟩
    exact startFrame_returning s analog
  · intro hall hv hui
    exact ⟨_, Tick_exhausted c s analog pre post t p hv hg hq hpre hp he hr hlen hall hui,
      rfl, rfl, rfl, rfl⟩

/-- C1, witness: with the library `[Kickflip, Treflip]` the second `Tick` of the scenario
leaves Kickflip eligible; with the library `[Kickflip]` it resets the matcher. -/
theorem C1_eligible_kept_unless_queue_runs_empty_witness :
    (∃ s', Tick (defaultCharacter [kickflip, treflip] false)
        (afterFirstPoint [kickflip, treflip]) ⟨0, 1⟩ = .ok s' ∧
      s'.TrickPointIndex = kickflip.Points.length ∧ s'.EligibleTrick = kickflip ∧
      s'.EligibleTrick.Points.length = (afterFirstPoint [kickflip, treflip]).TrickPointIndex + 1 ∧
      s'.bReturningFromTrick = false) ∧
    (∃ s', Tick (defaultCharacter [kickflip] false) (afterFirstPoint [kickflip]) ⟨0, 1⟩ = .ok s' ∧
      s'.TrickPointIndex = 0 ∧ s'.EligibleTrick.Points = [] ∧ s'.bReturningFromTrick = true ∧
      s'.TrickQueue = (defaultCharacter [kickflip] false).Tricks) :=
  ⟨(C1_eligible_kept_unless_queue_runs_empty (defaultCharacter [kickflip, treflip] false)
      (afterFirstPoint [kickflip, treflip]) ⟨0, 1⟩ [] [treflip] kickflip (pointAt 90)
      (by simp [Gated, afterFirstPoint, initial, constructed]) rfl
      (by intro u hu; cases hu) rfl
      (by norm_num [Eliminated, startFrame, updateDrag, afterFirstPoint, initial, constructed,
        pointAt, dirTable, defaultCharacter, FVector2D.sub, FVector2D.SizeGe,
        FVector2D.SizeSquared, FVector2D.NormalizedDotLt, FVector2D.DotProduct,
        FVector2D.SMALL_NUMBER])
      (by norm_num [Reached, pointAt, dirTable, defaultCharacter, FVector2D.sub,
        FVector2D.SizeLe, FVector2D.SizeSquared])
      rfl).1
      ⟨treflip, by simp, by simp [treflip, kickflip]⟩
      (by simp [TrickLocationDefined, defaultCharacter]),
   (C1_eligible_kept_unless_queue_runs_empty (defaultCharacter [kickflip] false)
      (afterFirstPoint [kickflip]) ⟨0, 1⟩ [] [] kickflip (pointAt 90)
      (by simp [Gated, afterFirstPoint, initial, constructed]) rfl
      (by intro u hu; cases hu) rfl
      (by norm_num [Eliminated, startFrame, updateDrag, afterFirstPoint, initial, constructed,
        pointAt, dirTable, defaultCharacter, FVector2D.sub, FVector2D.SizeGe,
        FVector2D.SizeSquared, FVector2D.NormalizedDotLt, FVector2D.DotProduct,
        FVector2D.SMALL_NUMBER])
      (by norm_num [Reached, pointAt, dirTable, defaultCharacter, FVector2D.sub,
        FVector2D.SizeLe, FVector2D.SizeSquared])
      rfl).2
      (by intro u hu; cases hu)
      (by intro u hu; simp [defaultCharacter] at hu; subst hu; simp [kickflip])
      (by simp [TrickLocationDefined, defaultCharacter])⟩

/-! ## C2: `AttemptExecuteTrick` -/

/-- C2. For every match state, whether or not a trick is eligible, `AttemptExecuteTrick`
ends in the attempt-reset state: `TrickPointIndex = 0`, `LastTrickLocation = (0,0)`,
`bIsDragging = true`, `bReturningFromTrick = true`, the queue equal to the library in
library order, and the point list of `EligibleTrick` empty. -/
theorem C2_attempt_execute_resets (c : Character) (s : MatchState) :
    (AttemptExecuteTrick c s).TrickPointIndex = 0 ∧
      (AttemptExecuteTrick c s).LastTrickLocation = ⟨0, 0⟩ ∧
      (AttemptExecuteTrick c s).bIsDragging = true ∧
      (AttemptExecuteTrick c s).bReturningFromTrick = true ∧
      (AttemptExecuteTrick c s).TrickQueue = c.Tricks ∧
      (AttemptExecuteTrick c s).EligibleTrick.Points = [] :=
  ⟨rfl, rfl, rfl, rfl, rfl, rfl⟩

/-! ## C3: eliminating the only candidate -/

/-- C3. For every match state with `TrickPointIndex > 0` whose queue holds exactly one
trick, and every analog sample of an ungated `Tick` for which that trick is eliminated
(its point at `TrickPointIndex` needs drag while the player is not dragging, or the dot
product is below `MinimumRequiredDot`; and the sample is at distance at least
`2 * TrickPointExecDistance` from `LastTrickLocation`), `Tick` returns with the queue
equal to the library, `TrickPointIndex = 0`, `LastTrickLocation = (0,0)`,
`bReturningFromTrick = true` and no eligible trick (an empty point list). -/
theorem C3_last_candidate_eliminated_resets (c : Character) (s : MatchState)
    (analog : FVector2D) (t : Trick) (p : TrickPoint)
    (hpos : 0 < s.TrickPointIndex)
    (hq : s.TrickQueue = [t])
    (hg : ¬ Gated c s analog)
    (hp : t.Points[s.TrickPointIndex]? = some p)
    (hrule : (p.bDrag = true ∧ (startFrame s analog).bIsDragging = false) ∨
      FVector2D.NormalizedDotLt (analog.sub s.LastTrickLocation)
        (p.DesiredPosition.sub s.LastTrickLocation) c.MinimumRequiredDot)
    (hfar : FVector2D.SizeGe (analog.sub s.LastTrickLocation) (c.TrickPointExecDistance * 2)) :
    ∃ s', Tick c s analog = .ok s' ∧ s'.TrickQueue = c.Tricks ∧ s'.TrickPointIndex = 0 ∧
      s'.LastTrickLocation = ⟨0, 0⟩ ∧ s'.bReturningFromTrick = true ∧
      s'.EligibleTrick.Points = [] := by
  have he : Eliminated c (startFrame s analog) analog p :=
    (eliminated_startFrame c s analog p).2 ⟨by omega, hrule, hfar⟩
  have hscan : ∀ fuel, scanQueue c fuel analog (startFrame s analog) [t] 0 =
      RemoveTrick c (startFrame s analog) 0 := fun fuel =>
    scanQueue_eliminated c fuel analog (startFrame s analog) [] [] t p
      (by intro u hu; cases hu) (by rw [startFrame_index]; exact hp) he
  rw [Tick_ungated c s analog hg, hq, hscan,
    RemoveTrick_last c _ 0 (by rw [startFrame_queue, hq]; simp)
      (by rw [startFrame_queue, hq]; rfl)]
  exact ⟨_, rfl, rfl, rfl, rfl, rfl, rfl⟩

/-- C3, witness: Kickflip alone in the queue, point 0 reached at (1,0), analog (1,-1)
heading away from the point at 90°. -/
theorem C3_last_candidate_eliminated_resets_witness :
    ∃ s', Tick (defaultCharacter [kickflip] false) (afterFirstPoint [kickflip]) ⟨1, -1⟩ = .ok s' ∧
      s'.TrickQueue = (defaultCharacter [kickflip] false).Tricks ∧ s'.TrickPointIndex = 0 ∧
      s'.LastTrickLocation = ⟨0, 0⟩ ∧ s'.bReturningFromTrick = true ∧
      s'.EligibleTrick.Points = [] :=
  C3_last_candidate_eliminated_resets (defaultCharacter [kickflip] false)
    (afterFirstPoint [kickflip]) ⟨1, -1⟩ kickflip (pointAt 90)
    (by simp [afterFirstPoint]) rfl
    (by simp [Gated, afterFirstPoint, initial, constructed]) rfl
    (Or.inr (by norm_num [afterFirstPoint, initial, constructed, pointAt, dirTable,
      defaultCharacter, FVector2D.sub, FVector2D.SizeSquared, FVector2D.NormalizedDotLt,
      FVector2D.DotProduct, FVector2D.SMALL_NUMBER]))
    (by norm_num [afterFirstPoint, initial, constructed, defaultCharacter, FVector2D.sub,
      FVector2D.SizeGe, FVector2D.SizeSquared])

/-! ## C4: the queue after a candidate became eligible -/

theorem withoutLength_middle (n : Nat) (pre post : List Trick) (t : Trick)
    (h : t.Points.length = n) :
    withoutLength n (pre ++ t :: post) = withoutLength n (pre ++ post) := by
  simp [withoutLength, List.filter_append, List.filter_cons, h]

theorem withoutLength_longer (n : Nat) (q : List Trick) :
    (withoutLength n q).filter (fun u => decide (n < u.Points.length)) =
      q.filter fun u => decide (n < u.Points.length) := by
  unfold withoutLength
  rw [List.filter_filter]
  apply List.filter_congr
  intro u _
  by_cases h : n < u.Points.length
  · have : u.Points.length ≠ n := by omega
    simp [h, this]
  · simp [h]

/-- C4, counterexample. Library and queue `[Kickflip, Shuvit]`, both with 2 points, point
0 reached at (1,0), analog (0,1): Kickflip reaches its last point and becomes eligible
with L = 2, the loop removes Shuvit, the queue runs empty and is refilled from the
library. The queue after `Tick` holds Kickflip and Shuvit, tricks with exactly 2 points. -/
theorem C4_counterexample :
    Reached (defaultCharacter [kickflip, shuvit] false) ⟨0, 1⟩ (pointAt 90) ∧
      kickflip.Points.length = (afterFirstPoint [kickflip, shuvit]).TrickPointIndex + 1 ∧
      Tick (defaultCharacter [kickflip, shuvit] false) (afterFirstPoint [kickflip, shuvit])
          ⟨0, 1⟩ =
        .ok { TrickQueue := [kickflip, shuvit]
              TrickPointIndex := 0
              LastTrickLocation := ⟨0, 0⟩
              bIsDragging := true
              bReturningFromTrick := true
              EligibleTrick := ⟨"Kickflip", []⟩
              PreviousLocation := ⟨0, 1⟩ } ∧
      kickflip.Points.length = 2 ∧ shuvit.Points.length = 2 := by
  refine ⟨?_, rfl, ?_, rfl, rfl⟩
  · norm_num [Reached, pointAt, dirTable, defaultCharacter, FVector2D.sub, FVector2D.SizeLe,
      FVector2D.SizeSquared]
  · simp [Tick, Gated, startFrame, updateDrag, endFrame, scanQueue, Eliminated, Reached,
      reachPoint, RemoveTrick, removeSiblings, AttemptExecuteTrick, UpdateTrickLocation,
      defaultCharacter, initial, afterFirstPoint, constructed,
      kickflip, shuvit, pointAt, dirTable, FVector2D.sub, FVector2D.SizeLe, FVector2D.SizeGe,
      FVector2D.SizeSquared, FVector2D.NormalizedDotLt, FVector2D.DotProduct,
      FVector2D.SMALL_NUMBER]
    norm_num

/-- C4, amended. In an ungated `Tick` in which a candidate `t` of length
L = `TrickPointIndex + 1` becomes eligible (every candidate before it passes, `t` is not
eliminated and reaches its last point), when the queue holds a trick whose length differs
from L and the argument of the controller update is defined: the queue after `Tick` is
the previous queue without its tricks of exactly L points, so it contains no trick with
exactly L points and contains every trick of the previous queue that is longer than L, in
the same relative order. -/
theorem C4_siblings_removed_when_queue_survives (c : Character) (s : MatchState)
    (analog : FVector2D) (pre post : List Trick) (t : Trick) (p : TrickPoint)
    (hg : ¬ Gated c s analog)
    (hq : s.TrickQueue = pre ++ t :: post)
    (hpre : ∀ u ∈ pre, Passes c (startFrame s analog) analog u)
    (hp : t.Points[s.TrickPointIndex]? = some p)
    (he : ¬ Eliminated c (startFrame s analog) analog p)
    (hr : Reached c analog p)
    (hlen : t.Points.length = s.TrickPointIndex + 1)
    (hother : ∃ u ∈ s.TrickQueue, u.Points.length ≠ t.Points.length)
    (hui : TrickLocationDefined c (withoutLength t.Points.length s.TrickQueue)) :
    ∃ s', Tick c s analog = .ok s' ∧
      s'.TrickQueue = withoutLength t.Points.length s.TrickQueue ∧
      (∀ u ∈ s'.TrickQueue, u.Points.length ≠ t.Points.length) ∧
      s'.TrickQueue.filter (fun u => decide (t.Points.length < u.Points.length)) =
        s.TrickQueue.filter (fun u => decide (t.Points.length < u.Points.length)) := by
  have hw : withoutLength t.Points.length s.TrickQueue =
      withoutLength (s.TrickPointIndex + 1) (pre ++ post) := by
    rw [hq, hlen]; exact withoutLength_middle _ pre post t hlen
  have hother2 : ∃ u ∈ pre ++ post, u.Points.length ≠ s.TrickPointIndex + 1 := by
    obtain ⟨u, hu, hne⟩ := hother
    rw [hq] at hu
    rw [hlen] at hne
    refine ⟨u, ?_, hne⟩
    rcases List.mem_append.mp hu with h | h
    · exact List.mem_append.mpr (Or.inl h)
    · rcases List.mem_cons.mp h with rfl | h
      · exact absurd hlen hne
      · exact List.mem_append.mpr (Or.inr h)
  refine ⟨_, Tick_eligible c s analog pre post t p hg hq hpre hp he hr hlen hother2
    (by rw [← hw]; exact hui), ?_, ?_, ?_⟩
  · exact hw.symm
  · intro u hu
    have hu' : u ∈ withoutLength (s.TrickPointIndex + 1) (pre ++ post) := hu
    unfold withoutLength at hu'
    rw [hlen]
    simpa using (List.mem_filter.mp hu').2
  · show (withoutLength (s.TrickPointIndex + 1) (pre ++ post)).filter _ = _
    rw [← hw]
    exact withoutLength_longer _ _

/-- C4, witness: queue `[Kickflip, Shuvit, Treflip]`, point 0 reached, analog (0,1):
Kickflip becomes eligible with L = 2, Shuvit is removed with it and Treflip stays. -/
theorem C4_siblings_removed_when_queue_survives_witness :
    ∃ s', Tick (defaultCharacter [kickflip, shuvit, treflip] false)
        (afterFirstPoint [kickflip, shuvit, treflip]) ⟨0, 1⟩ = .ok s' ∧
      s'.TrickQueue = withoutLength kickflip.Points.length
        (afterFirstPoint [kickflip, shuvit, treflip]).TrickQueue ∧
      (∀ u ∈ s'.TrickQueue, u.Points.length ≠ kickflip.Points.length) ∧
      s'.TrickQueue.filter (fun u => decide (kickflip.Points.length < u.Points.length)) =
        (afterFirstPoint [kickflip, shuvit, treflip]).TrickQueue.filter
          (fun u => decide (kickflip.Points.length < u.Points.length)) :=
  C4_siblings_removed_when_queue_survives (defaultCharacter [kickflip, shuvit, treflip] false)
    (afterFirstPoint [kickflip, shuvit, treflip]) ⟨0, 1⟩ [] [shuvit, treflip] kickflip
    (pointAt 90)
    (by simp [Gated, afterFirstPoint, initial, constructed]) rfl
    (by intro u hu; cases hu) rfl
    (by norm_num [Eliminated, startFrame, updateDrag, afterFirstPoint, initial, constructed,
      pointAt, dirTable, defaultCharacter, FVector2D.sub, FVector2D.SizeGe,
      FVector2D.SizeSquared, FVector2D.NormalizedDotLt, FVector2D.DotProduct,
      FVector2D.SMALL_NUMBER])
    (by norm_num [Reached, pointAt, dirTable, defaultCharacter, FVector2D.sub,
      FVector2D.SizeLe, FVector2D.SizeSquared])
    rfl
    ⟨treflip, by simp [afterFirstPoint, initial], by simp [treflip, kickflip]⟩
    (by simp [TrickLocationDefined, defaultCharacter])

/-! ## C5: one increment of the point index per call -/

theorem isReset_attemptExecuteTrick (c : Character) (s : MatchState) :
    IsReset c (AttemptExecuteTrick c s) := ⟨rfl, rfl, rfl⟩

theorem wasReset_attemptExecuteTrick (c : Character) (s : MatchState) :
    WasReset c (AttemptExecuteTrick c s) := ⟨rfl, rfl, fun _ => rfl⟩

theorem RemoveTrick_index (c : Character) (s s1 : MatchState) (i : Nat)
    (h : RemoveTrick c s i = .ok s1) :
    s1.TrickPointIndex = s.TrickPointIndex ∨ WasReset c s1 := by
  rcases RemoveTrick_cases c s s1 i h with h1 | h1
  · left; rw [h1]
  · right; rw [h1]; exact wasReset_attemptExecuteTrick c s

/-- In the reset state of a valid library the sibling-removal loop, from any position,
can only return the state it started in. -/
theorem removeSiblings_isReset (c : Character) (hv : LibraryValid c) :
    ∀ (fuel : Nat) (s s' : MatchState) (j removed : Nat), IsReset c s →
      removeSiblings c fuel s j removed = .ok s' → s' = s := by
  intro fuel
  induction fuel with
  | zero =>
    intro s s' j removed _ h
    unfold removeSiblings at h
    split at h
    · cases h
    · injection h with h; exact h.symm
  | succ f ih =>
    intro s s' j removed hr h
    unfold removeSiblings at h
    by_cases hc : j < s.TrickQueue.length + removed
    · simp only [hc, if_true] at h
      cases hget : s.TrickQueue[j - removed]? with
      | none => simp only [hget] at h; cases h
      | some t =>
        have hne : t.Points.length ≠ s.TrickPointIndex := by
          rw [hr.1]
          exact hv t (by rw [← hr.2.2]; exact List.getElem?_mem hget)
        simp only [hget, hne, if_false] at h
        exact ih s s' (j + 1) removed hr h
    · simp only [hc, if_false] at h
      injection h with h; exact h.symm

/-- Once `AttemptExecuteTrick` has run, the sibling-removal loop keeps the point index at
0 and the flag `bReturningFromTrick` set, and for a valid library it keeps the queue. -/
theorem removeSiblings_wasReset (c : Character) :
    ∀ (fuel : Nat) (s s' : MatchState) (j removed : Nat), WasReset c s →
      removeSiblings c fuel s j removed = .ok s' → WasReset c s' := by
  intro fuel
  induction fuel with
  | zero =>
    intro s s' j removed hr h
    unfold removeSiblings at h
    split at h
    · cases h
    · injection h with h; rw [← h]; exact hr
  | succ f ih =>
    intro s s' j removed hr h
    unfold removeSiblings at h
    by_cases hc : j < s.TrickQueue.length + removed
    · simp only [hc, if_true] at h
      cases hget : s.TrickQueue[j - removed]? with
      | none => simp only [hget] at h; cases h
      | some t =>
        simp only [hget] at h
        by_cases hlen : t.Points.length = s.TrickPointIndex
        · simp only [hlen, if_true] at h
          cases hrm : RemoveTrick c s (j - removed) with
          | ok s1 =>
            simp only [hrm] at h
            refine ih s1 s' (j + 1) (removed + 1) ?_ h
            rcases RemoveTrick_cases c s s1 _ hrm with h1 | h1
            · rw [h1]
              refine ⟨hr.1, hr.2.1, fun hv => ?_⟩
              have hmem : t ∈ c.Tricks := by
                rw [← hr.2.2 hv]; exact List.getElem?_mem hget
              exact absurd (hlen.trans hr.1) (hv t hmem)
            · rw [h1]; exact wasReset_attemptExecuteTrick c s
          | outOfBounds => simp only [hrm] at h; cases h
          | diverged => simp only [hrm] at h; cases h
        · simp only [hlen, if_false] at h
          exact ih s s' (j + 1) removed hr h
    · simp only [hc, if_false] at h
      injection h with h; rw [← h]; exact hr

theorem removeSiblings_index (c : Character) :
    ∀ (fuel : Nat) (s s' : MatchState) (j removed : Nat),
      removeSiblings c fuel s j removed = .ok s' →
      s'.TrickPointIndex = s.TrickPointIndex ∨ WasReset c s' := by
  intro fuel
  induction fuel with
  | zero =>
    intro s s' j removed h
    unfold removeSiblings at h
    split at h
    · cases h
    · injection h with h; left; rw [h]
  | succ f ih =>
    intro s s' j removed h
    unfold removeSiblings at h
    by_cases hc : j < s.TrickQueue.length + removed
    · simp only [hc, if_true] at h
      cases hget : s.TrickQueue[j - removed]? with
      | none => simp only [hget] at h; cases h
      | some t =>
        simp only [hget] at h
        by_cases hlen : t.Points.length = s.TrickPointIndex
        · simp only [hlen, if_true] at h
          cases hrm : RemoveTrick c s (j - removed) with
          | ok s1 =>
            simp only [hrm] at h
            rcases RemoveTrick_index c s s1 _ hrm with h1 | h1
            · rw [← h1]
              exact ih s1 s' (j + 1) (removed + 1) h
            · right
              exact removeSiblings_wasReset c f s1 s' (j + 1) (removed + 1) h1 h
          | outOfBounds => simp only [hrm] at h; cases h
          | diverged => simp only [hrm] at h; cases h
        · simp only [hlen, if_false] at h
          exact ih s s' (j + 1) removed h
    · simp only [hc, if_false] at h
      injection h with h; left; rw [h]

theorem UpdateTrickLocation_eq (c : Character) (s s' : MatchState)
    (h : UpdateTrickLocation c s = .ok s') : s' = s := by
  unfold UpdateTrickLocation at h
  split at h
  · split at h
    · cases h
    · split at h
      · cases h
      · injection h with h; exact h.symm
  · injection h with h; exact h.symm

theorem reachPoint_index (c : Character) (fuel : Nat)
    (s s' : MatchState) (i : Nat) (t : Trick) (p : TrickPoint)
    (h : reachPoint c fuel s i t p = .ok s') :
    s'.TrickPointIndex = s.TrickPointIndex + 1 ∨ WasReset c s' := by
  unfold reachPoint at h
  by_cases hlen : s.TrickPointIndex + 1 = t.Points.length
  · simp only [hlen, if_true] at h
    cases hrm : RemoveTrick c { s with
        TrickPointIndex := t.Points.length
        LastTrickLocation := p.DesiredPosition
        EligibleTrick := t } i with
    | ok s2 =>
      simp only [hrm] at h
      cases hsib : removeSiblings c fuel s2 0 0 with
      | ok s3 =>
        simp only [hsib] at h
        rw [UpdateTrickLocation_eq c s3 s' h]
        rcases RemoveTrick_index c _ s2 i hrm with h1 | h1
        · rcases removeSiblings_index c fuel s2 s3 0 0 hsib with h2 | h2
          · left; rw [h2, h1, hlen]
          · right; exact h2
        · right
          exact removeSiblings_wasReset c fuel s2 s3 0 0 h1 hsib
      | outOfBounds => simp only [hsib] at h; cases h
      | diverged => simp only [hsib] at h; cases h
    | outOfBounds => simp only [hrm] at h; cases h
    | diverged => simp only [hrm] at h; cases h
  · simp only [hlen, if_false] at h
    left
    rw [UpdateTrickLocation_eq c _ s' h]

theorem scanQueue_index (c : Character) (fuel : Nat)
    (analog : FVector2D) (s : MatchState) :
    ∀ (q : List Trick) (i : Nat) (s' : MatchState),
      scanQueue c fuel analog s q i = .ok s' →
      s'.TrickPointIndex = s.TrickPointIndex ∨ s'.TrickPointIndex = s.TrickPointIndex + 1 ∨
        WasReset c s' := by
  intro q
  induction q with
  | nil =>
    intro i s' h
    unfold scanQueue at h
    injection h with h
    left; rw [h]
  | cons t rest ih =>
    intro i s' h
    unfold scanQueue at h
    cases hp : t.Points[s.TrickPointIndex]? with
    | none => simp only [hp] at h; cases h
    | some p =>
      simp only [hp] at h
      by_cases he : Eliminated c s analog p
      · simp only [he, if_true] at h
        rcases RemoveTrick_index c s s' i h with h1 | h1
        · exact Or.inl h1
        · exact Or.inr (Or.inr h1)
      · simp only [he, if_false] at h
        by_cases hr : Reached c analog p
        · simp only [hr, if_true] at h
          exact Or.inr (reachPoint_index c fuel s s' i t p h)
        · simp only [hr, if_false] at h
          exact ih (i + 1) s' h

/-- C5. For every match state and every analog sample, however many candidates are within
`TrickPointExecDistance` of their point at `TrickPointIndex`, the state a `Tick` call
returns has `TrickPointIndex` equal to the old value or to the old value plus one, or it
is 0 together with the attempt-reset: `bReturningFromTrick = true` and the queue refilled,
equal to the library when every trick of the library has at least one point. -/
theorem C5_single_point_advance (c : Character) (s s' : MatchState)
    (analog : FVector2D) (h : Tick c s analog = .ok s') :
    s'.TrickPointIndex = s.TrickPointIndex ∨ s'.TrickPointIndex = s.TrickPointIndex + 1 ∨
      (s'.TrickPointIndex = 0 ∧ s'.bReturningFromTrick = true ∧
        (LibraryValid c → s'.TrickQueue = c.Tricks)) := by
  unfold Tick at h
  by_cases hg : Gated c s analog
  · simp only [hg, if_true] at h
    injection h with h
    left; rw [h]
  · simp only [hg, if_false] at h
    cases hscan : scanQueue c (s.TrickQueue.length + c.Tricks.length + 1) analog
        (startFrame s analog) (startFrame s analog).TrickQueue 0 with
    | ok s2 =>
      simp only [hscan, endFrame] at h
      injection h with h
      have := scanQueue_index c _ analog _ _ 0 s2 hscan
      rw [startFrame_index] at this
      rw [← h]
      exact this
    | outOfBounds => simp only [hscan, endFrame] at h; cases h
    | diverged => simp only [hscan, endFrame] at h; cases h

/-- C5, witness: Kickflip and Shuvit both have their point 0 at (1,0); one `Tick` with
analog (1,0) advances `TrickPointIndex` from 0 to 1 only. -/
theorem C5_single_point_advance_witness :
    ({ afterFirstPoint [kickflip, shuvit] with PreviousLocation := ⟨1, 0⟩ } :
        MatchState).TrickPointIndex = (initial [kickflip, shuvit]).TrickPointIndex ∨
      ({ afterFirstPoint [kickflip, shuvit] with PreviousLocation := ⟨1, 0⟩ } :
        MatchState).TrickPointIndex = (initial [kickflip, shuvit]).TrickPointIndex + 1 ∨
      (({ afterFirstPoint [kickflip, shuvit] with PreviousLocation := ⟨1, 0⟩ } :
          MatchState).TrickPointIndex = 0 ∧
        ({ afterFirstPoint [kickflip, shuvit] with PreviousLocation := ⟨1, 0⟩ } :
          MatchState).bReturningFromTrick = true ∧
        (LibraryValid (defaultCharacter [kickflip, shuvit] false) →
          ({ afterFirstPoint [kickflip, shuvit] with PreviousLocation := ⟨1, 0⟩ } :
            MatchState).TrickQueue = (defaultCharacter [kickflip, shuvit] false).Tricks)) :=
  C5_single_point_advance (defaultCharacter [kickflip, shuvit] false)
    (initial [kickflip, shuvit]) _ ⟨1, 0⟩
    (by simp [Tick, Gated, startFrame, updateDrag, endFrame, scanQueue, Eliminated, Reached,
      reachPoint, UpdateTrickLocation, defaultCharacter, initial, afterFirstPoint, constructed,
      kickflip, shuvit, pointAt, dirTable, FVector2D.sub, FVector2D.SizeLe,
      FVector2D.SizeSquared])

/-! ## C6: the gate -/

/-- C6. For every match state with `bReturningFromTrick = true` and every analog sample
with `|analog| > Deadzone`, `Tick` returns the state it was called in: the point index,
the queue, `LastTrickLocation`, `bIsDragging`, `bReturningFromTrick` and `EligibleTrick`
are unchanged. -/
theorem C6_gated_tick_changes_nothing (c : Character) (s : MatchState) (analog : FVector2D)
    (hret : s.bReturningFromTrick = true) (hout : FVector2D.SizeGt analog c.Deadzone) :
    ∃ s', Tick c s analog = .ok s' ∧ s'.TrickPointIndex = s.TrickPointIndex ∧
      s'.TrickQueue = s.TrickQueue ∧ s'.LastTrickLocation = s.LastTrickLocation ∧
      s'.bIsDragging = s.bIsDragging ∧ s'.bReturningFromTrick = s.bReturningFromTrick ∧
      s'.EligibleTrick = s.EligibleTrick := by
  have hg : Gated c s analog := ⟨hret, hout⟩
  refine ⟨s, ?_, rfl, rfl, rfl, rfl, rfl, rfl⟩
  unfold Tick
  rw [if_pos hg]

/-- C6, witness: the state `AttemptExecuteTrick` leaves, with the analog at (0,1), outside
the default deadzone 0.05. -/
theorem C6_gated_tick_changes_nothing_witness :
    ∃ s', Tick (defaultCharacter [kickflip] false)
        (AttemptExecuteTrick (defaultCharacter [kickflip] false) (afterFirstPoint [kickflip]))
        ⟨0, 1⟩ = .ok s' ∧
      s'.TrickPointIndex = (AttemptExecuteTrick (defaultCharacter [kickflip] false)
        (afterFirstPoint [kickflip])).TrickPointIndex ∧
      s'.TrickQueue = (AttemptExecuteTrick (defaultCharacter [kickflip] false)
        (afterFirstPoint [kickflip])).TrickQueue ∧
      s'.LastTrickLocation = (AttemptExecuteTrick (defaultCharacter [kickflip] false)
        (afterFirstPoint [kickflip])).LastTrickLocation ∧
      s'.bIsDragging = (AttemptExecuteTrick (defaultCharacter [kickflip] false)
        (afterFirstPoint [kickflip])).bIsDragging ∧
      s'.bReturningFromTrick = (AttemptExecuteTrick (defaultCharacter [kickflip] false)
        (afterFirstPoint [kickflip])).bReturningFromTrick ∧
      s'.EligibleTrick = (AttemptExecuteTrick (defaultCharacter [kickflip] false)
        (afterFirstPoint [kickflip])).EligibleTrick :=
  C6_gated_tick_changes_nothing (defaultCharacter [kickflip] false)
    (AttemptExecuteTrick (defaultCharacter [kickflip] false) (afterFirstPoint [kickflip]))
    ⟨0, 1⟩ rfl
    (by norm_num [defaultCharacter, FVector2D.SizeGt, FVector2D.SizeSquared])

/-! ## C7: the grace radius -/

theorem not_sizeGe_of_sizeLt (v : FVector2D) (d : ℚ) (h : FVector2D.SizeLt v d) :
    ¬ FVector2D.SizeGe v d := by
  unfold FVector2D.SizeGe
  unfold FVector2D.SizeLt at h
  intro h2
  rcases h2 with h2 | h2
  · exact absurd h.1 (not_lt.mpr h2)
  · exact absurd h.2 (not_lt.mpr h2)

theorem scanQueue_all_pass (c : Character) (fuel : Nat) (analog : FVector2D) (s : MatchState)
    (q : List Trick) (h : ∀ t ∈ q, Passes c s analog t) :
    scanQueue c fuel analog s q 0 = .ok s := by
  have := scanQueue_skip c fuel analog s q [] 0 h
  rw [List.append_nil] at this
  rw [this]
  rfl

/-- C7. For every match state and every analog sample whose distance to
`LastTrickLocation` is less than `2 * TrickPointExecDistance`, `Tick` eliminates no
candidate by the direction/drag rule, whatever the point, the dot product and the drag
flag are; if in addition every candidate has a point at `TrickPointIndex` and none of
these points is within `TrickPointExecDistance` of the sample, `Tick` returns with the
queue and the point index it was called with. -/
theorem C7_grace_radius (c : Character) (s : MatchState) (analog : FVector2D)
    (hnear : FVector2D.SizeLt (analog.sub s.LastTrickLocation) (c.TrickPointExecDistance * 2)) :
    (∀ (s1 : MatchState) (p : TrickPoint), s1.LastTrickLocation = s.LastTrickLocation →
        ¬ Eliminated c s1 analog p) ∧
      ((∀ t ∈ s.TrickQueue, ∃ p, t.Points[s.TrickPointIndex]? = some p ∧ ¬ Reached c analog p) →
        ∃ s', Tick c s analog = .ok s' ∧ s'.TrickQueue = s.TrickQueue ∧
          s'.TrickPointIndex = s.TrickPointIndex) := by
  have hno : ∀ (s1 : MatchState) (p : TrickPoint), s1.LastTrickLocation = s.LastTrickLocation →
      ¬ Eliminated c s1 analog p := by
    intro s1 p hl he
    unfold Eliminated at he
    rw [hl] at he
    exact not_sizeGe_of_sizeLt _ _ hnear he.2.2
  refine ⟨hno, ?_⟩
  intro hall
  by_cases hg : Gated c s analog
  · refine ⟨s, ?_, rfl, rfl⟩
    unfold Tick
    rw [if_pos hg]
  · have hpass : ∀ t ∈ s.TrickQueue, Passes c (startFrame s analog) analog t := by
      intro t ht
      obtain ⟨p, hp, hr⟩ := hall t ht
      exact ⟨p, by rw [startFrame_index]; exact hp,
        hno _ p (startFrame_last s analog), hr⟩
    rw [Tick_ungated c s analog hg, scanQueue_all_pass c _ analog _ _ hpass]
    exact ⟨_, rfl, startFrame_queue s analog, startFrame_index s analog⟩

/-- C7, witness: Kickflip with point 0 reached at (1,0); the analog (1, -0.3) heads away
from the point at 90° but is within 0.4 of (1,0), and Kickflip stays in the queue. -/
theorem C7_grace_radius_witness :
    ¬ Eliminated (defaultCharacter [kickflip] false) (afterFirstPoint [kickflip])
        ⟨1, -3 / 10⟩ (pointAt 90) ∧
      ∃ s', Tick (defaultCharacter [kickflip] false) (afterFirstPoint [kickflip])
          ⟨1, -3 / 10⟩ = .ok s' ∧
        s'.TrickQueue = (afterFirstPoint [kickflip]).TrickQueue ∧
        s'.TrickPointIndex = (afterFirstPoint [kickflip]).TrickPointIndex :=
  have h := C7_grace_radius (defaultCharacter [kickflip] false) (afterFirstPoint [kickflip])
    ⟨1, -3 / 10⟩
    (by norm_num [afterFirstPoint, initial, constructed, defaultCharacter, FVector2D.sub,
      FVector2D.SizeLt, FVector2D.SizeSquared])
  ⟨h.1 _ _ rfl, h.2 (by
    intro t ht
    simp [afterFirstPoint, initial] at ht
    subst ht
    refine ⟨pointAt 90, rfl, ?_⟩
    norm_num [Reached, pointAt, dirTable, defaultCharacter, FVector2D.sub, FVector2D.SizeLe,
      FVector2D.SizeSquared])⟩

/-! ## C8: the drag update -/

theorem sizeGe_iff_not_sizeLt (v : FVector2D) (d : ℚ) :
    FVector2D.SizeGe v d ↔ ¬ FVector2D.SizeLt v d := by
  unfold FVector2D.SizeGe FVector2D.SizeLt
  rw [not_and_or, not_lt, not_lt]

/-- C8, counterexample. The state after `CustomBeginPlay` for `[Kickflip]` passes the
gate and has `bIsDragging = false`; the analog (1,0) has size 1 ≥ 0.9. After the drag
update, and after the whole `Tick`, `bIsDragging` is still false. -/
theorem C8_counterexample :
    ¬ Gated (defaultCharacter [kickflip] false) (initial [kickflip]) ⟨1, 0⟩ ∧
      FVector2D.SizeGe ⟨1, 0⟩ (9 / 10) ∧
      (initial [kickflip]).bIsDragging = false ∧
      (startFrame (initial [kickflip]) ⟨1, 0⟩).bIsDragging = false ∧
      Tick (defaultCharacter [kickflip] false) (initial [kickflip]) ⟨1, 0⟩ =
        .ok { TrickQueue := [kickflip]
              TrickPointIndex := 1
              LastTrickLocation := ⟨1, 0⟩
              bIsDragging := false
              bReturningFromTrick := false
              EligibleTrick := ⟨"", []⟩
              PreviousLocation := ⟨1, 0⟩ } := by
  refine ⟨?_, ?_, rfl, ?_, ?_⟩
  · simp [Gated, initial, constructed]
  · norm_num [FVector2D.SizeGe, FVector2D.SizeSquared]
  · simp [startFrame, updateDrag, initial, constructed]
  · simp [Tick, Gated, startFrame, updateDrag, endFrame, scanQueue, Eliminated, Reached,
      reachPoint, UpdateTrickLocation, defaultCharacter, initial, constructed,
      kickflip, pointAt, dirTable, FVector2D.sub, FVector2D.SizeLe, FVector2D.SizeSquared]

/-- C8, amended. For every match state and every analog sample, the drag update of an
ungated `Tick` only clears the flag: afterwards `bIsDragging` is true exactly when it was
true before and `|analog| >= 0.9`; it is cleared when `|analog| < 0.9` and is never set
when it was false. The outer loop of `Tick` runs from the state so updated. The flag is
set to true by `AttemptExecuteTrick` only. -/
theorem C8_drag_update_only_clears (c : Character) (s : MatchState) (analog : FVector2D) :
    (startFrame s analog).bIsDragging =
        (s.bIsDragging && decide (FVector2D.SizeGe analog (9 / 10))) ∧
      (¬ Gated c s analog →
        Tick c s analog =
          endFrame analog
            (scanQueue c (s.TrickQueue.length + c.Tricks.length + 1) analog (startFrame s analog)
              s.TrickQueue 0)) ∧
      (AttemptExecuteTrick c s).bIsDragging = true := by
  refine ⟨?_, Tick_ungated c s analog, rfl⟩
  unfold startFrame updateDrag
  by_cases hd : s.bIsDragging = true
  · by_cases hlt : FVector2D.SizeLt analog (9 / 10)
    · have hge : ¬ FVector2D.SizeGe analog (9 / 10) := fun h =>
        (sizeGe_iff_not_sizeLt _ _).1 h hlt
      simp [hd, hlt, hge]
    · have hge : FVector2D.SizeGe analog (9 / 10) := (sizeGe_iff_not_sizeLt _ _).2 hlt
      simp [hd, hlt, hge]
  · simp [hd]

/-- C8, witness: at the initial state of `[Kickflip]` with analog (1,0) the gate is open
and `Tick` is the outer loop run from the state after the drag update. -/
theorem C8_drag_update_only_clears_witness :
    Tick (defaultCharacter [kickflip] false) (initial [kickflip]) ⟨1, 0⟩ =
      endFrame ⟨1, 0⟩
        (scanQueue (defaultCharacter [kickflip] false)
          ((initial [kickflip]).TrickQueue.length +
            (defaultCharacter [kickflip] false).Tricks.length + 1) ⟨1, 0⟩
          (startFrame (initial [kickflip]) ⟨1, 0⟩) (initial [kickflip]).TrickQueue 0) :=
  (C8_drag_update_only_clears (defaultCharacter [kickflip] false) (initial [kickflip])
    ⟨1, 0⟩).2.1 (by simp [Gated, initial, constructed])

/-! ## C9: one elimination per call -/

/-- C9. In an ungated `Tick`, scanning the queue in order, when the first candidate `t`
that does not pass (every candidate before it has a point at `TrickPointIndex`, is not
eliminated and has not reached it) is eliminated by the direction/drag rule, `Tick` is
one `RemoveTrick` at the index of `t` and nothing more: the queue loses exactly `t`, and
every other candidate, those after `t` included, whether or not they violate the rule,
stays in order, with the point index, `LastTrickLocation` and `EligibleTrick` unchanged.
When `t` was the only candidate, that `RemoveTrick` leaves the queue empty and refills it
by `AttemptExecuteTrick`. -/
theorem C9_one_elimination_per_tick (c : Character) (s : MatchState) (analog : FVector2D)
    (pre post : List Trick) (t : Trick) (p : TrickPoint)
    (hg : ¬ Gated c s analog)
    (hq : s.TrickQueue = pre ++ t :: post)
    (hpre : ∀ u ∈ pre, Passes c (startFrame s analog) analog u)
    (hp : t.Points[s.TrickPointIndex]? = some p)
    (he : Eliminated c (startFrame s analog) analog p) :
    Tick c s analog = endFrame analog (RemoveTrick c (startFrame s analog) pre.length) ∧
      s.TrickQueue.eraseIdx pre.length = pre ++ post ∧
      (pre ++ post ≠ [] →
        ∃ s', Tick c s analog = .ok s' ∧ s'.TrickQueue = pre ++ post ∧
          s'.TrickPointIndex = s.TrickPointIndex ∧
          s'.LastTrickLocation = s.LastTrickLocation ∧ s'.EligibleTrick = s.EligibleTrick) ∧
      (pre ++ post = [] →
        Tick c s analog = .ok { AttemptExecuteTrick c s with PreviousLocation := analog }) := by
  have hT : Tick c s analog = endFrame analog (RemoveTrick c (startFrame s analog) pre.length) := by
    rw [Tick_ungated c s analog hg, hq,
      scanQueue_eliminated c _ analog _ pre post t p hpre (by rw [startFrame_index]; exact hp) he]
  have hlt : pre.length < (startFrame s analog).TrickQueue.length := by
    rw [startFrame_queue, hq]; simp
  have herase : (startFrame s analog).TrickQueue.eraseIdx pre.length = pre ++ post := by
    rw [startFrame_queue, hq]; exact eraseIdx_middle pre post t
  refine ⟨hT, by rw [hq]; exact eraseIdx_middle pre post t, ?_, ?_⟩
  · intro hne
    rw [hT, RemoveTrick_keep c _ pre.length hlt (by rw [herase]; exact hne), herase]
    exact ⟨_, rfl, rfl, startFrame_index s analog, startFrame_last s analog,
      startFrame_eligible s analog⟩
  · intro hnil
    rw [hT, RemoveTrick_last c _ pre.length hlt (by rw [herase]; exact hnil)]
    have hprev : (startFrame s analog).PreviousLocation = s.PreviousLocation :=
      (updateDrag_fields _ analog).2.2.2.2.2
    simp only [endFrame, AttemptExecuteTrick, startFrame_eligible]

/-- C9, witness: queue `[Kickflip, Treflip]`, point 0 reached at (1,0), analog (1,-1): both
tricks have their next point at 90° and both violate the rule; `Tick` removes Kickflip
only. -/
theorem C9_one_elimination_per_tick_witness :
    Eliminated (defaultCharacter [kickflip, treflip] false)
        (startFrame (afterFirstPoint [kickflip, treflip]) ⟨1, -1⟩) ⟨1, -1⟩ (pointAt 90) ∧
      ∃ s', Tick (defaultCharacter [kickflip, treflip] false)
          (afterFirstPoint [kickflip, treflip]) ⟨1, -1⟩ = .ok s' ∧
        s'.TrickQueue = [] ++ [treflip] ∧
        s'.TrickPointIndex = (afterFirstPoint [kickflip, treflip]).TrickPointIndex ∧
        s'.LastTrickLocation = (afterFirstPoint [kickflip, treflip]).LastTrickLocation ∧
        s'.EligibleTrick = (afterFirstPoint [kickflip, treflip]).EligibleTrick :=
  have he : Eliminated (defaultCharacter [kickflip, treflip] false)
      (startFrame (afterFirstPoint [kickflip, treflip]) ⟨1, -1⟩) ⟨1, -1⟩ (pointAt 90) := by
    norm_num [Eliminated, startFrame, updateDrag, afterFirstPoint, initial, constructed,
      pointAt, dirTable, defaultCharacter, FVector2D.sub, FVector2D.SizeGe,
      FVector2D.SizeSquared, FVector2D.NormalizedDotLt, FVector2D.DotProduct,
      FVector2D.SMALL_NUMBER]
  ⟨he, (C9_one_elimination_per_tick (defaultCharacter [kickflip, treflip] false)
    (afterFirstPoint [kickflip, treflip]) ⟨1, -1⟩ [] [treflip] kickflip (pointAt 90)
    (by simp [Gated, afterFirstPoint, initial, constructed]) rfl
    (by intro u hu; cases hu) rfl he).2.2.1 (by simp)⟩

/-! ## C10: `CustomBeginPlay` and tricks without points -/

/-- C10, counterexample. The library `[Empty, Kickflip]`, whose first trick has zero trick
points: `CustomBeginPlay` reports no error and seeds the queue with both tricks; the
first `Tick` then starts matching and ends on the out-of-range access `Points[0]`. -/
theorem C10_counterexample :
    emptyTrick.Points.length = 0 ∧
      (CustomBeginPlay dirTable false (defaultCharacter [emptyTrick, kickflip] false)
        constructed).2.TrickQueue = [emptyTrick, kickflip] ∧
      Tick (CustomBeginPlay dirTable false (defaultCharacter [emptyTrick, kickflip] false)
          constructed).1
        (CustomBeginPlay dirTable false (defaultCharacter [emptyTrick, kickflip] false)
          constructed).2 ⟨1, 0⟩ = .outOfBounds := by
  refine ⟨rfl, ?_, ?_⟩
  · simp [CustomBeginPlay, defaultCharacter, emptyTrick, kickflip, pointAt]
  · simp [Tick, Gated, startFrame, updateDrag, endFrame, scanQueue, CustomBeginPlay,
      defaultCharacter, constructed, emptyTrick]

/-- C10, amended. `CustomBeginPlay` validates nothing and cannot fail: for every library,
one with tricks without points included, it seeds the queue with every trick of the
library in library order (the queue is the library with the desired positions
recomputed, a trick without points being kept as it is) and leaves the other matcher
members as they were. When the first trick of the seeded queue has no points, an ungated
`Tick` starts matching and ends on the out-of-range access `Points[TrickPointIndex]`. -/
theorem C10_custom_begin_play_validates_nothing (dir : ℚ → FVector2D) (controller : Bool)
    (c : Character) (s : MatchState) :
    (CustomBeginPlay dir controller c s).2.TrickQueue =
        (CustomBeginPlay dir controller c s).1.Tricks ∧
      (CustomBeginPlay dir controller c s).2.TrickQueue.map (fun t => t.TrickName) =
        c.Tricks.map (fun t => t.TrickName) ∧
      (CustomBeginPlay dir controller c s).2.TrickQueue.map (fun t => t.Points.length) =
        c.Tricks.map (fun t => t.Points.length) ∧
      (∀ t ∈ c.Tricks, t.Points = [] → t ∈ (CustomBeginPlay dir controller c s).2.TrickQueue) ∧
      (CustomBeginPlay dir controller c s).2.TrickPointIndex = s.TrickPointIndex ∧
      (CustomBeginPlay dir controller c s).2.bReturningFromTrick = s.bReturningFromTrick ∧
      (∀ (analog : FVector2D) (t : Trick) (rest : List Trick),
        (CustomBeginPlay dir controller c s).2.TrickQueue = t :: rest → t.Points = [] →
        ¬ Gated (CustomBeginPlay dir controller c s).1 (CustomBeginPlay dir controller c s).2
          analog →
        Tick (CustomBeginPlay dir controller c s).1 (CustomBeginPlay dir controller c s).2
          analog = .outOfBounds) := by
  refine ⟨rfl, ?_, ?_, ?_, rfl, rfl, ?_⟩
  · simp [CustomBeginPlay, List.map_map, Function.comp_def]
  · simp [CustomBeginPlay, List.map_map, Function.comp_def]
  · intro t ht hpts
    simp only [CustomBeginPlay]
    refine List.mem_map.mpr ⟨t, ht, ?_⟩
    cases t
    simp at hpts
    simp [hpts]
  · intro analog t rest hq hpts hg
    rw [Tick_ungated _ _ analog hg, hq]
    simp [scanQueue, hpts, endFrame]

/-- C10, witness: the library `[Empty, Kickflip]` after `CustomBeginPlay`, first `Tick`
with analog (1,0). -/
theorem C10_custom_begin_play_validates_nothing_witness :
    Tick (CustomBeginPlay dirTable false (defaultCharacter [emptyTrick, kickflip] false)
          constructed).1
        (CustomBeginPlay dirTable false (defaultCharacter [emptyTrick, kickflip] false)
          constructed).2 ⟨1, 0⟩ = .outOfBounds :=
  (C10_custom_begin_play_validates_nothing dirTable false
    (defaultCharacter [emptyTrick, kickflip] false) constructed).2.2.2.2.2.2 ⟨1, 0⟩
    emptyTrick [kickflip]
    (by simp [CustomBeginPlay, defaultCharacter, emptyTrick, kickflip, pointAt])
    rfl
    (by simp [Gated, CustomBeginPlay, constructed])

/-! ## C11: the queue is never empty -/

theorem RemoveTrick_nonempty (c : Character) (hne : c.Tricks ≠ []) (s s' : MatchState) (i : Nat)
    (h : RemoveTrick c s i = .ok s') : s'.TrickQueue ≠ [] := by
  unfold RemoveTrick at h
  by_cases hi : i < s.TrickQueue.length
  · by_cases he : (s.TrickQueue.eraseIdx i).length = 0
    · simp only [hi, he, if_true] at h
      injection h with h
      rw [← h]
      exact hne
    · simp only [hi, he, if_true, if_false] at h
      injection h with h
      rw [← h]
      intro h0
      have h1 : s.TrickQueue.eraseIdx i = [] := h0
      exact he (by rw [h1]; rfl)
  · simp only [hi, if_false] at h
    cases h

theorem removeSiblings_nonempty (c : Character) (hne : c.Tricks ≠ []) :
    ∀ (fuel : Nat) (s s' : MatchState) (j removed : Nat), s.TrickQueue ≠ [] →
      removeSiblings c fuel s j removed = .ok s' → s'.TrickQueue ≠ [] := by
  intro fuel
  induction fuel with
  | zero =>
    intro s s' j removed hs h
    unfold removeSiblings at h
    split at h
    · cases h
    · injection h with h; rw [← h]; exact hs
  | succ f ih =>
    intro s s' j removed hs h
    unfold removeSiblings at h
    by_cases hc : j < s.TrickQueue.length + removed
    · simp only [hc, if_true] at h
      cases hget : s.TrickQueue[j - removed]? with
      | none => simp only [hget] at h; cases h
      | some t =>
        simp only [hget] at h
        by_cases hlen : t.Points.length = s.TrickPointIndex
        · simp only [hlen, if_true] at h
          cases hrm : RemoveTrick c s (j - removed) with
          | ok s1 =>
            simp only [hrm] at h
            exact ih s1 s' (j + 1) (removed + 1) (RemoveTrick_nonempty c hne s s1 _ hrm) h
          | outOfBounds => simp only [hrm] at h; cases h
          | diverged => simp only [hrm] at h; cases h
        · simp only [hlen, if_false] at h
          exact ih s s' (j + 1) removed hs h
    · simp only [hc, if_false] at h
      injection h with h; rw [← h]; exact hs

theorem reachPoint_nonempty (c : Character) (hne : c.Tricks ≠ []) (fuel : Nat)
    (s s' : MatchState) (i : Nat) (t : Trick) (p : TrickPoint) (hs : s.TrickQueue ≠ [])
    (h : reachPoint c fuel s i t p = .ok s') : s'.TrickQueue ≠ [] := by
  unfold reachPoint at h
  by_cases hlen : s.TrickPointIndex + 1 = t.Points.length
  · simp only [hlen, if_true] at h
    cases hrm : RemoveTrick c { s with
        TrickPointIndex := t.Points.length
        LastTrickLocation := p.DesiredPosition
        EligibleTrick := t } i with
    | ok s2 =>
      simp only [hrm] at h
      cases hsib : removeSiblings c fuel s2 0 0 with
      | ok s3 =>
        simp only [hsib] at h
        rw [UpdateTrickLocation_eq c s3 s' h]
        exact removeSiblings_nonempty c hne fuel s2 s3 0 0
          (RemoveTrick_nonempty c hne _ s2 i hrm) hsib
      | outOfBounds => simp only [hsib] at h; cases h
      | diverged => simp only [hsib] at h; cases h
    | outOfBounds => simp only [hrm] at h; cases h
    | diverged => simp only [hrm] at h; cases h
  · simp only [hlen, if_false] at h
    rw [UpdateTrickLocation_eq c _ s' h]
    exact hs

theorem scanQueue_nonempty (c : Character) (hne : c.Tricks ≠ []) (fuel : Nat)
    (analog : FVector2D) (s : MatchState) (hs : s.TrickQueue ≠ []) :
    ∀ (q : List Trick) (i : Nat) (s' : MatchState),
      scanQueue c fuel analog s q i = .ok s' → s'.TrickQueue ≠ [] := by
  intro q
  induction q with
  | nil =>
    intro i s' h
    unfold scanQueue at h
    injection h with h
    rw [← h]; exact hs
  | cons t rest ih =>
    intro i s' h
    unfold scanQueue at h
    cases hp : t.Points[s.TrickPointIndex]? with
    | none => simp only [hp] at h; cases h
    | some p =>
      simp only [hp] at h
      by_cases he : Eliminated c s analog p
      · simp only [he, if_true] at h
        exact RemoveTrick_nonempty c hne s s' i h
      · simp only [he, if_false] at h
        by_cases hr : Reached c analog p
        · simp only [hr, if_true] at h
          exact reachPoint_nonempty c hne fuel s s' i t p hs h
        · simp only [hr, if_false] at h
          exact ih (i + 1) s' h

theorem Tick_nonempty (c : Character) (hne : c.Tricks ≠ []) (s s' : MatchState)
    (analog : FVector2D) (hs : s.TrickQueue ≠ []) (h : Tick c s analog = .ok s') :
    s'.TrickQueue ≠ [] := by
  unfold Tick at h
  by_cases hg : Gated c s analog
  · simp only [hg, if_true] at h
    injection h with h
    rw [← h]; exact hs
  · simp only [hg, if_false] at h
    cases hscan : scanQueue c (s.TrickQueue.length + c.Tricks.length + 1) analog
        (startFrame s analog) (startFrame s analog).TrickQueue 0 with
    | ok s2 =>
      simp only [hscan, endFrame] at h
      injection h with h
      rw [← h]
      exact scanQueue_nonempty c hne _ analog _ (by rw [startFrame_queue]; exact hs) _ 0 s2 hscan
    | outOfBounds => simp only [hscan, endFrame] at h; cases h
    | diverged => simp only [hscan, endFrame] at h; cases h

theorem customBeginPlay_tricks_ne (dir : ℚ → FVector2D) (controller : Bool) (c : Character)
    (s : MatchState) (hne : c.Tricks ≠ []) :
    (CustomBeginPlay dir controller c s).1.Tricks ≠ [] := by
  simp only [CustomBeginPlay]
  intro h
  exact hne (List.map_eq_nil_iff.mp h)

/-- C11. For a non-empty library, in every state reachable from the state produced by
`CustomBeginPlay` by any sequence of returning `Tick` calls and of `AttemptExecuteTrick`
calls the queue is non-empty; `AttemptExecuteTrick` and every returning `RemoveTrick`
leave a non-empty queue (an emptied queue is refilled from the library at once), and
every returning `Tick` called with a non-empty queue leaves one. -/
theorem C11_queue_never_empty (dir : ℚ → FVector2D) (controller : Bool) (c0 : Character)
    (s0 : MatchState) (hne : c0.Tricks ≠ []) :
    (∀ s, Reachable (CustomBeginPlay dir controller c0 s0).1
        (CustomBeginPlay dir controller c0 s0).2 s → s.TrickQueue ≠ []) ∧
      (∀ s, (AttemptExecuteTrick (CustomBeginPlay dir controller c0 s0).1 s).TrickQueue ≠ []) ∧
      (∀ s s' i, RemoveTrick (CustomBeginPlay dir controller c0 s0).1 s i = .ok s' →
        s'.TrickQueue ≠ []) ∧
      (∀ s s' analog, s.TrickQueue ≠ [] →
        Tick (CustomBeginPlay dir controller c0 s0).1 s analog = .ok s' →
        s'.TrickQueue ≠ []) := by
  have hlib := customBeginPlay_tricks_ne dir controller c0 s0 hne
  refine ⟨?_, fun _ => hlib, fun s s' i => RemoveTrick_nonempty _ hlib s s' i,
    fun s s' analog => Tick_nonempty _ hlib s s' analog⟩
  intro s hr
  induction hr with
  | start => exact hlib
  | tick s s' analog _ ht ih => exact Tick_nonempty _ hlib s s' analog ih ht
  | execute s _ _ => exact hlib

/-- C11, witness: the library `[Kickflip]`; the state after `CustomBeginPlay` and one
`Tick` with analog (1,0) is reachable and has a non-empty queue. -/
theorem C11_queue_never_empty_witness :
    ({ afterFirstPoint [kickflip] with PreviousLocation := ⟨1, 0⟩ } : MatchState).TrickQueue ≠
      [] :=
  (C11_queue_never_empty dirTable false (defaultCharacter [kickflip] false) constructed
    (by simp [defaultCharacter])).1 _
    (Reachable.tick _ _ ⟨1, 0⟩ Reachable.start
      (by simp [Tick, Gated, startFrame, updateDrag, endFrame, scanQueue, Eliminated, Reached,
        reachPoint, UpdateTrickLocation, CustomBeginPlay, defaultCharacter, initial,
        afterFirstPoint, constructed, kickflip, pointAt, dirTable, FVector2D.sub,
        FVector2D.SizeLe, FVector2D.SizeSquared]))

/-! ## C12: two tricks that part at their second point -/

/-- C12, counterexample. Library `[Kickflip, Shuvit]` (points at 0°, 90° and at 0°, 180°),
no controller: after `Tick` with (1,0), `Tick` with (0.6, 0.8) and `Tick` with (0,1) the
eligible trick is not Kickflip: its point list is empty and the point index is 0, because
the third `Tick` removed the last candidate and `RemoveTrick` ran `AttemptExecuteTrick`. -/
theorem C12_counterexample :
    Tick (defaultCharacter [kickflip, shuvit] false) (initial [kickflip, shuvit]) ⟨1, 0⟩ =
        .ok { afterFirstPoint [kickflip, shuvit] with PreviousLocation := ⟨1, 0⟩ } ∧
      Tick (defaultCharacter [kickflip, shuvit] false)
          { afterFirstPoint [kickflip, shuvit] with PreviousLocation := ⟨1, 0⟩ } ⟨3 / 5, 4 / 5⟩ =
        .ok { afterFirstPoint [kickflip] with PreviousLocation := ⟨3 / 5, 4 / 5⟩ } ∧
      Tick (defaultCharacter [kickflip, shuvit] false)
          { afterFirstPoint [kickflip] with PreviousLocation := ⟨3 / 5, 4 / 5⟩ } ⟨0, 1⟩ =
        .ok { TrickQueue := [kickflip, shuvit]
              TrickPointIndex := 0
              LastTrickLocation := ⟨0, 0⟩
              bIsDragging := true
              bReturningFromTrick := true
              EligibleTrick := ⟨"Kickflip", []⟩
              PreviousLocation := ⟨0, 1⟩ } ∧
      (⟨"Kickflip", []⟩ : Trick) ≠ kickflip := by
  refine ⟨?_, ?_, ?_, ?_⟩
  · simp [Tick, Gated, startFrame, updateDrag, endFrame, scanQueue, Eliminated, Reached,
      reachPoint, UpdateTrickLocation, defaultCharacter, initial, afterFirstPoint, constructed,
      kickflip, shuvit, pointAt, dirTable, FVector2D.sub, FVector2D.SizeLe,
      FVector2D.SizeSquared]
  · simp [Tick, Gated, startFrame, updateDrag, endFrame, scanQueue, Eliminated, Reached,
      reachPoint, RemoveTrick, UpdateTrickLocation, defaultCharacter, initial, afterFirstPoint,
      constructed, kickflip, shuvit, pointAt, dirTable, FVector2D.sub, FVector2D.SizeLe,
      FVector2D.SizeGe, FVector2D.SizeSquared, FVector2D.NormalizedDotLt,
      FVector2D.DotProduct, FVector2D.SMALL_NUMBER]
    norm_num
  · simp [Tick, Gated, startFrame, updateDrag, endFrame, scanQueue, Eliminated, Reached,
      reachPoint, RemoveTrick, removeSiblings, AttemptExecuteTrick, UpdateTrickLocation,
      defaultCharacter, initial, afterFirstPoint, constructed,
      kickflip, shuvit, pointAt, dirTable, FVector2D.sub, FVector2D.SizeLe, FVector2D.SizeGe,
      FVector2D.SizeSquared, FVector2D.NormalizedDotLt, FVector2D.DotProduct,
      FVector2D.SMALL_NUMBER]
    norm_num
  · simp [kickflip]

/-- With point 0 reached at (1,0): a sample whose direction is off the point at 180° by
the dot test, outside the grace radius, is not within 0.2 of the point at 90°. -/
theorem not_reached_of_shuvit_dot (lib : List Trick) (pc : Bool) (a : FVector2D)
    (hB : FVector2D.NormalizedDotLt (a.sub ⟨1, 0⟩) ((pointAt 180).DesiredPosition.sub ⟨1, 0⟩)
      (3 / 5))
    (hfar : FVector2D.SizeGe (a.sub ⟨1, 0⟩) (1 / 5 * 2)) :
    ¬ Reached (defaultCharacter lib pc) a (pointAt 90) := by
  intro hr
  obtain ⟨x, y⟩ := a
  simp only [Reached, defaultCharacter, pointAt, dirTable, FVector2D.sub, FVector2D.SizeLe,
    FVector2D.SizeSquared, if_true] at hr
  have h180 : (180 : ℚ) ≠ 90 := by norm_num
  simp only [pointAt, dirTable, h180, if_false, if_true, FVector2D.sub, FVector2D.SizeGe,
    FVector2D.SizeSquared, FVector2D.NormalizedDotLt, FVector2D.DotProduct,
    FVector2D.SMALL_NUMBER] at hB hfar
  obtain ⟨_, h⟩ := hr
  have h1 : 4 * x + 3 * (y - 1) ≤ 1 := by
    nlinarith [sq_nonneg (3 * x - 4 * (y - 1)), sq_nonneg (4 * x + 3 * (y - 1) - 1)]
  have hy : 0 ≤ y := by nlinarith [sq_nonneg x, sq_nonneg (y - 1)]
  have hx : x ≤ 1 := by nlinarith [sq_nonneg x, sq_nonneg (y - 1), sq_nonneg (x - 1)]
  have hss : (1 : ℚ) / 100000000 < (x - 1) * (x - 1) + (y - 0) * (y - 0) := by
    rcases hfar with hf | hf
    · norm_num at hf
    · linarith
  have hss2 : (1 : ℚ) / 100000000 < (-1 - 1) * (-1 - 1) + (0 - 0) * (0 - 0) := by norm_num
  have h35 : (0 : ℚ) ≤ 3 / 5 := by norm_num
  rw [if_pos ⟨hss, hss2⟩, if_pos h35] at hB
  rcases hB with hB | hB
  · linarith
  · nlinarith [mul_nonneg hy (by linarith : (0 : ℚ) ≤ 4 * (1 - x) - 3 * y),
      mul_nonneg (by linarith : (0 : ℚ) ≤ 4 * (1 - x) - 3 * y)
        (by linarith : (0 : ℚ) ≤ 4 * (1 - x) - 3 * y)]

/-- C12, amended. Library `[Kickflip, Shuvit]` (A with points at 0°, 90°; B with points at
0°, 180°), from the initial state: `Tick` with analog (1,0) brings the point index to 1;
a `Tick` with a sample that heads toward 90° (the dot test of A's point passes), for
which B's dot product is below 0.6 and which lies at distance at least 0.4 from (1,0),
removes B from the queue and keeps A; in the following `Tick` with analog (0,1) A reaches
its last point and, being the last candidate, is executed in that same call by
`RemoveTrick` and `AttemptExecuteTrick`: on return the eligible trick carries A's name
and no points, the point index is 0, `bReturningFromTrick` is set and the queue holds A
and B again. B was never selected. -/
theorem C12_diverging_tricks (pc : Bool) (a : FVector2D)
    (hA : ¬ FVector2D.NormalizedDotLt (a.sub ⟨1, 0⟩) ((pointAt 90).DesiredPosition.sub ⟨1, 0⟩)
      (3 / 5))
    (hB : FVector2D.NormalizedDotLt (a.sub ⟨1, 0⟩) ((pointAt 180).DesiredPosition.sub ⟨1, 0⟩)
      (3 / 5))
    (hfar : FVector2D.SizeGe (a.sub ⟨1, 0⟩) (1 / 5 * 2)) :
    Tick (defaultCharacter [kickflip, shuvit] pc) (initial [kickflip, shuvit]) ⟨1, 0⟩ =
        .ok { afterFirstPoint [kickflip, shuvit] with PreviousLocation := ⟨1, 0⟩ } ∧
      Tick (defaultCharacter [kickflip, shuvit] pc)
          { afterFirstPoint [kickflip, shuvit] with PreviousLocation := ⟨1, 0⟩ } a =
        .ok { afterFirstPoint [kickflip] with PreviousLocation := a } ∧
      Tick (defaultCharacter [kickflip, shuvit] pc)
          { afterFirstPoint [kickflip] with PreviousLocation := a } ⟨0, 1⟩ =
        .ok { TrickQueue := [kickflip, shuvit]
              TrickPointIndex := 0
              LastTrickLocation := ⟨0, 0⟩
              bIsDragging := true
              bReturningFromTrick := true
              EligibleTrick := ⟨"Kickflip", []⟩
              PreviousLocation := ⟨0, 1⟩ } := by
  refine ⟨?_, ?_, ?_⟩
  · cases pc <;>
    simp [Tick, Gated, startFrame, updateDrag, endFrame, scanQueue, Eliminated, Reached,
      reachPoint, UpdateTrickLocation, defaultCharacter, initial, afterFirstPoint, constructed,
      kickflip, shuvit, pointAt, dirTable, FVector2D.sub, FVector2D.SizeLe,
      FVector2D.SizeSquared]
  · have hg : ¬ Gated (defaultCharacter [kickflip, shuvit] pc)
        { afterFirstPoint [kickflip, shuvit] with PreviousLocation := ⟨1, 0⟩ } a := by
      simp [Gated, afterFirstPoint, initial, constructed]
    have hsf : startFrame
        { afterFirstPoint [kickflip, shuvit] with PreviousLocation := ⟨1, 0⟩ } a =
        { afterFirstPoint [kickflip, shuvit] with PreviousLocation := ⟨1, 0⟩ } := by
      simp [startFrame, updateDrag, afterFirstPoint, initial, constructed]
    have hpre : ∀ u ∈ [kickflip], Passes (defaultCharacter [kickflip, shuvit] pc)
        { afterFirstPoint [kickflip, shuvit] with PreviousLocation := ⟨1, 0⟩ } a u := by
      intro u hu
      rw [List.mem_singleton] at hu
      subst hu
      refine ⟨pointAt 90, rfl, ?_, not_reached_of_shuvit_dot _ pc a hB hfar⟩
      intro he
      rcases he.2.1 with h | h
      · exact absurd h.1 (by simp [pointAt])
      · exact hA h
    have he : Eliminated (defaultCharacter [kickflip, shuvit] pc)
        { afterFirstPoint [kickflip, shuvit] with PreviousLocation := ⟨1, 0⟩ } a
        (pointAt 180) :=
      ⟨by simp [afterFirstPoint], Or.inr hB, hfar⟩
    have hscan := fun fuel => scanQueue_eliminated (defaultCharacter [kickflip, shuvit] pc) fuel
      a { afterFirstPoint [kickflip, shuvit] with PreviousLocation := ⟨1, 0⟩ } [kickflip] []
      shuvit (pointAt 180) hpre rfl he
    rw [Tick_ungated _ _ a hg, hsf]
    have hq : ({ afterFirstPoint [kickflip, shuvit] with PreviousLocation := ⟨1, 0⟩ } :
        MatchState).TrickQueue = [kickflip] ++ [shuvit] := rfl
    rw [hq, hscan]
    rw [RemoveTrick_keep _ _ _ (by simp [afterFirstPoint, initial])
      (by simp [afterFirstPoint, initial, List.eraseIdx])]
    simp [endFrame, afterFirstPoint, initial, List.eraseIdx]
  · rw [Tick_exhausted (defaultCharacter [kickflip, shuvit] pc)
      { afterFirstPoint [kickflip] with PreviousLocation := a } ⟨0, 1⟩ [] [] kickflip
      (pointAt 90)
      (by intro u hu; simp [defaultCharacter] at hu; rcases hu with rfl | rfl <;>
        simp [kickflip, shuvit])
      (by simp [Gated, afterFirstPoint, initial, constructed]) rfl
      (by intro u hu; cases hu) rfl
      (by norm_num [Eliminated, startFrame, updateDrag, afterFirstPoint, initial, constructed,
        pointAt, dirTable, defaultCharacter, FVector2D.sub, FVector2D.SizeGe,
        FVector2D.SizeSquared, FVector2D.NormalizedDotLt, FVector2D.DotProduct,
        FVector2D.SMALL_NUMBER])
      (by norm_num [Reached, pointAt, dirTable, defaultCharacter, FVector2D.sub,
        FVector2D.SizeLe, FVector2D.SizeSquared])
      rfl (by intro u hu; cases hu)
      (by intro _; exact ⟨kickflip, by simp [defaultCharacter], by simp [kickflip]⟩)]
    simp [AttemptExecuteTrick, defaultCharacter, kickflip]

/-- C12, witness: the sample (0.6, 0.8), with a controller attached. -/
theorem C12_diverging_tricks_witness :
    Tick (defaultCharacter [kickflip, shuvit] true) (initial [kickflip, shuvit]) ⟨1, 0⟩ =
        .ok { afterFirstPoint [kickflip, shuvit] with PreviousLocation := ⟨1, 0⟩ } ∧
      Tick (defaultCharacter [kickflip, shuvit] true)
          { afterFirstPoint [kickflip, shuvit] with PreviousLocation := ⟨1, 0⟩ }
          ⟨3 / 5, 4 / 5⟩ =
        .ok { afterFirstPoint [kickflip] with PreviousLocation := ⟨3 / 5, 4 / 5⟩ } ∧
      Tick (defaultCharacter [kickflip, shuvit] true)
          { afterFirstPoint [kickflip] with PreviousLocation := ⟨3 / 5, 4 / 5⟩ } ⟨0, 1⟩ =
        .ok { TrickQueue := [kickflip, shuvit]
              TrickPointIndex := 0
              LastTrickLocation := ⟨0, 0⟩
              bIsDragging := true
              bReturningFromTrick := true
              EligibleTrick := ⟨"Kickflip", []⟩
              PreviousLocation := ⟨0, 1⟩ } :=
  C12_diverging_tricks true ⟨3 / 5, 4 / 5⟩
    (by norm_num [pointAt, dirTable, FVector2D.sub, FVector2D.SizeSquared,
      FVector2D.NormalizedDotLt, FVector2D.DotProduct, FVector2D.SMALL_NUMBER])
    (by norm_num [pointAt, dirTable, FVector2D.sub, FVector2D.SizeSquared,
      FVector2D.NormalizedDotLt, FVector2D.DotProduct, FVector2D.SMALL_NUMBER])
    (by norm_num [FVector2D.sub, FVector2D.SizeGe, FVector2D.SizeSquared])

/-! ## C13: a point reached before the last one -/

/-- The reached branch for a candidate that has more points left: the point index goes up
by one and `LastTrickLocation` becomes the reached point, provided the argument of the
controller update can be evaluated. -/
theorem reachPoint_advance (c : Character) (fuel : Nat) (s : MatchState) (i : Nat) (t : Trick)
    (p : TrickPoint) (hlen : s.TrickPointIndex + 1 ≠ t.Points.length)
    (hui : TrickLocationDefined c s.TrickQueue) :
    reachPoint c fuel s i t p =
      .ok { s with
        TrickPointIndex := s.TrickPointIndex + 1
        LastTrickLocation := p.DesiredPosition } := by
  unfold reachPoint
  simp only [hlen, if_false]
  exact UpdateTrickLocation_ok c _ hui

/-- An ungated `Tick` whose first candidate that does not pass reaches a point that is not
its last: the point index goes up by one, `LastTrickLocation` becomes the reached point
and the queue and the eligible trick stay, provided the argument of the controller update
can be evaluated. -/
theorem Tick_advance (c : Character) (s : MatchState) (analog : FVector2D)
    (pre post : List Trick) (t : Trick) (p : TrickPoint)
    (hg : ¬ Gated c s analog)
    (hq : s.TrickQueue = pre ++ t :: post)
    (hpre : ∀ u ∈ pre, Passes c (startFrame s analog) analog u)
    (hp : t.Points[s.TrickPointIndex]? = some p)
    (he : ¬ Eliminated c (startFrame s analog) analog p)
    (hr : Reached c analog p)
    (hlen : s.TrickPointIndex + 1 < t.Points.length)
    (hui : TrickLocationDefined c s.TrickQueue) :
    Tick c s analog =
      .ok { startFrame s analog with
        TrickPointIndex := s.TrickPointIndex + 1
        LastTrickLocation := p.DesiredPosition
        PreviousLocation := analog } := by
  have hi := startFrame_index s analog
  rw [Tick_ungated c s analog hg, hq,
    scanQueue_reached c _ analog _ pre post t p hpre (by rw [hi]; exact hp) he hr,
    reachPoint_advance c _ _ pre.length t p (by rw [hi]; omega)
      (by rw [startFrame_queue]; exact hui)]
  simp only [endFrame, hi]

/-- C13, the code at the failing input. Library `[Nollie, Kickflip]` (Nollie has the single
point at 90°), state after `CustomBeginPlay`, analog (1,0): the gate is open, Nollie
passes, and the first candidate that reaches its point is Kickflip, which has 2 points,
more than `TrickPointIndex + 1 = 1`. Without a controller `Tick` returns with the point
index 1, `LastTrickLocation = (1,0)` and the queue and the eligible trick unchanged, as
the claim says. With a controller attached the same call ends in the out-of-range access
`TrickQueue[0].Points[1]`, made for the controller update after the two assignments. -/
theorem C13_advance_faults_on_controller_update :
    ¬ Gated (defaultCharacter [nollie, kickflip] true) (initial [nollie, kickflip]) ⟨1, 0⟩ ∧
      Passes (defaultCharacter [nollie, kickflip] true)
        (startFrame (initial [nollie, kickflip]) ⟨1, 0⟩) ⟨1, 0⟩ nollie ∧
      kickflip.Points[(initial [nollie, kickflip]).TrickPointIndex]? = some (pointAt 0) ∧
      Reached (defaultCharacter [nollie, kickflip] true) ⟨1, 0⟩ (pointAt 0) ∧
      (initial [nollie, kickflip]).TrickPointIndex + 1 < kickflip.Points.length ∧
      Tick (defaultCharacter [nollie, kickflip] false) (initial [nollie, kickflip]) ⟨1, 0⟩ =
        .ok { initial [nollie, kickflip] with
          TrickPointIndex := 1
          LastTrickLocation := ⟨1, 0⟩
          PreviousLocation := ⟨1, 0⟩ } ∧
      Tick (defaultCharacter [nollie, kickflip] true) (initial [nollie, kickflip]) ⟨1, 0⟩ =
        .outOfBounds := by
  refine ⟨?_, ?_, rfl, ?_, ?_, ?_, ?_⟩
  · simp [Gated, initial, constructed]
  · refine ⟨pointAt 90, rfl, ?_, ?_⟩
    · simp [Eliminated, startFrame, updateDrag, initial, constructed]
    · norm_num [Reached, pointAt, dirTable, defaultCharacter, FVector2D.sub, FVector2D.SizeLe,
        FVector2D.SizeSquared]
  · norm_num [Reached, pointAt, dirTable, defaultCharacter, FVector2D.sub, FVector2D.SizeLe,
      FVector2D.SizeSquared]
  · simp [initial, constructed, kickflip]
  · simp [Tick, Gated, startFrame, updateDrag, endFrame, scanQueue, Eliminated, Reached,
      reachPoint, UpdateTrickLocation, defaultCharacter, initial, constructed,
      kickflip, nollie, pointAt, dirTable, FVector2D.sub, FVector2D.SizeLe,
      FVector2D.SizeSquared]
    norm_num
  · simp [Tick, Gated, startFrame, updateDrag, endFrame, scanQueue, Eliminated, Reached,
      reachPoint, UpdateTrickLocation, defaultCharacter, initial, constructed,
      kickflip, nollie, pointAt, dirTable, FVector2D.sub, FVector2D.SizeLe,
      FVector2D.SizeSquared]
    norm_num

/-! ## The structure of the library after `CustomBeginPlay` -/

/-- For every library and every `dir`, `CustomBeginPlay` keeps the number and order of the
tricks and of the points of every trick, every trick name, angle and drag flag, sets the
desired position of every trick point to the value `dir` of its angle, and seeds the
queue with exactly the tricks of the library, in library order. Which values the
engine's single-precision cosine and sine give is outside this model. -/
theorem customBeginPlay_structure (dir : ℚ → FVector2D) (controller : Bool)
    (c : Character) (s : MatchState) :
    (CustomBeginPlay dir controller c s).2.TrickQueue =
        (CustomBeginPlay dir controller c s).1.Tricks ∧
      (CustomBeginPlay dir controller c s).1.Tricks.length = c.Tricks.length ∧
      ∀ (i : Nat) (t : Trick), c.Tricks[i]? = some t →
        ∃ t', (CustomBeginPlay dir controller c s).1.Tricks[i]? = some t' ∧
          t'.TrickName = t.TrickName ∧ t'.Points.length = t.Points.length ∧
          ∀ (j : Nat) (p : TrickPoint), t.Points[j]? = some p →
            ∃ p', t'.Points[j]? = some p' ∧ p'.Angle = p.Angle ∧ p'.bDrag = p.bDrag ∧
              p'.DesiredPosition = dir p.Angle := by
  refine ⟨rfl, by simp [CustomBeginPlay], ?_⟩
  intro i t ht
  refine ⟨{ t with Points := t.Points.map fun p => { p with DesiredPosition := dir p.Angle } },
    by simp [CustomBeginPlay, List.getElem?_map, ht], rfl, by simp, ?_⟩
  intro j p hp
  exact ⟨{ p with DesiredPosition := dir p.Angle }, by simp [List.getElem?_map, hp], rfl, rfl,
    rfl⟩

/-! ## C15: the accesses `Points[TrickPointIndex]` -/

/-- C15, the code at the failing input. Library `[Treflip, Kickflip]` (points at 0°, 90°,
180° and at 0°, 90°), every trick with at least one point, no controller. From the state
after `CustomBeginPlay`, `Tick` with (1,0) and `Tick` with (0,1) both return: each time
Treflip, first in the queue, reaches its point and the loop breaks, so the point index
becomes 2 while Kickflip, with exactly 2 points, is still in the queue. In this reachable
state a trick of the queue does not have more than `TrickPointIndex` points, and the next
`Tick` with (0,1) (Treflip passes inside the grace radius) ends in the out-of-range access
`TrickQueue[1].Points[2]` of the elimination rule. -/
theorem C15_shorter_trick_left_in_queue :
    LibraryValid (defaultCharacter [treflip, kickflip] false) ∧
      CustomBeginPlay dirTable false (defaultCharacter [treflip, kickflip] false) constructed =
        (defaultCharacter [treflip, kickflip] false, initial [treflip, kickflip]) ∧
      Tick (defaultCharacter [treflip, kickflip] false) (initial [treflip, kickflip]) ⟨1, 0⟩ =
        .ok { afterFirstPoint [treflip, kickflip] with PreviousLocation := ⟨1, 0⟩ } ∧
      Tick (defaultCharacter [treflip, kickflip] false)
          { afterFirstPoint [treflip, kickflip] with PreviousLocation := ⟨1, 0⟩ } ⟨0, 1⟩ =
        .ok { initial [treflip, kickflip] with
          TrickPointIndex := 2
          LastTrickLocation := ⟨0, 1⟩
          PreviousLocation := ⟨0, 1⟩ } ∧
      Reachable (defaultCharacter [treflip, kickflip] false) (initial [treflip, kickflip])
        { initial [treflip, kickflip] with
          TrickPointIndex := 2
          LastTrickLocation := ⟨0, 1⟩
          PreviousLocation := ⟨0, 1⟩ } ∧
      kickflip ∈ ({ initial [treflip, kickflip] with
          TrickPointIndex := 2
          LastTrickLocation := ⟨0, 1⟩
          PreviousLocation := ⟨0, 1⟩ } : MatchState).TrickQueue ∧
      kickflip.Points.length = 2 ∧
      Tick (defaultCharacter [treflip, kickflip] false)
          { initial [treflip, kickflip] with
            TrickPointIndex := 2
            LastTrickLocation := ⟨0, 1⟩
            PreviousLocation := ⟨0, 1⟩ } ⟨0, 1⟩ = .outOfBounds := by
  have h1 : Tick (defaultCharacter [treflip, kickflip] false) (initial [treflip, kickflip])
      ⟨1, 0⟩ = .ok { afterFirstPoint [treflip, kickflip] with PreviousLocation := ⟨1, 0⟩ } := by
    simp [Tick, Gated, startFrame, updateDrag, endFrame, scanQueue, Eliminated, Reached,
      reachPoint, UpdateTrickLocation, defaultCharacter, initial, afterFirstPoint, constructed,
      kickflip, treflip, pointAt, dirTable, FVector2D.sub, FVector2D.SizeLe,
      FVector2D.SizeSquared]
  have h2 : Tick (defaultCharacter [treflip, kickflip] false)
      { afterFirstPoint [treflip, kickflip] with PreviousLocation := ⟨1, 0⟩ } ⟨0, 1⟩ =
      .ok { initial [treflip, kickflip] with
        TrickPointIndex := 2
        LastTrickLocation := ⟨0, 1⟩
        PreviousLocation := ⟨0, 1⟩ } := by
    simp [Tick, Gated, startFrame, updateDrag, endFrame, scanQueue, Eliminated, Reached,
      reachPoint, UpdateTrickLocation, defaultCharacter, initial, afterFirstPoint, constructed,
      kickflip, treflip, pointAt, dirTable, FVector2D.sub, FVector2D.SizeLe, FVector2D.SizeGe,
      FVector2D.SizeSquared, FVector2D.NormalizedDotLt, FVector2D.DotProduct,
      FVector2D.SMALL_NUMBER]
    norm_num
  refine ⟨?_, ?_, h1, h2, ?_, ?_, rfl, ?_⟩
  · intro u hu
    simp [defaultCharacter] at hu
    rcases hu with rfl | rfl <;> simp [kickflip, treflip]
  · simp [CustomBeginPlay, defaultCharacter, initial, constructed, kickflip, treflip, pointAt]
  · exact Reachable.tick _ _ ⟨0, 1⟩ (Reachable.tick _ _ ⟨1, 0⟩ Reachable.start h1) h2
  · simp [initial]
  · simp [Tick, Gated, startFrame, updateDrag, endFrame, scanQueue, Eliminated, Reached,
      defaultCharacter, initial, constructed,
      kickflip, treflip, pointAt, dirTable, FVector2D.sub, FVector2D.SizeLe, FVector2D.SizeGe,
      FVector2D.SizeSquared, FVector2D.NormalizedDotLt, FVector2D.DotProduct,
      FVector2D.SMALL_NUMBER]
    norm_num

/-! ## C16: elimination and the point-reached check in one call -/

/-- C16, counterexample. Queue and library `[Varial, Treflip]`, point 0 reached at (1,0),
analog (0,1): `TrickPointIndex` is 1, Varial (next point at 270°) is eliminated by the
dot test, and the surviving Treflip has its point at index 1 exactly at the sample. The
call removes Varial and returns with `TrickPointIndex` still 1 and `LastTrickLocation`
still (1,0): the point-reached check was not applied to Treflip. -/
theorem C16_counterexample :
    (afterFirstPoint [varial, treflip]).TrickPointIndex ≠ 0 ∧
      Eliminated (defaultCharacter [varial, treflip] false)
        (startFrame (afterFirstPoint [varial, treflip]) ⟨0, 1⟩) ⟨0, 1⟩ (pointAt 270) ∧
      treflip.Points[(afterFirstPoint [varial, treflip]).TrickPointIndex]? =
        some (pointAt 90) ∧
      Reached (defaultCharacter [varial, treflip] false) ⟨0, 1⟩ (pointAt 90) ∧
      Tick (defaultCharacter [varial, treflip] false) (afterFirstPoint [varial, treflip])
          ⟨0, 1⟩ =
        .ok { TrickQueue := [treflip]
              TrickPointIndex := 1
              LastTrickLocation := ⟨1, 0⟩
              bIsDragging := false
              bReturningFromTrick := false
              EligibleTrick := ⟨"", []⟩
              PreviousLocation := ⟨0, 1⟩ } := by
  refine ⟨by simp [afterFirstPoint], ?_, rfl, ?_, ?_⟩
  · norm_num [Eliminated, startFrame, updateDrag, afterFirstPoint, initial, constructed,
      pointAt, dirTable, defaultCharacter, FVector2D.sub, FVector2D.SizeGe,
      FVector2D.SizeSquared, FVector2D.NormalizedDotLt, FVector2D.DotProduct,
      FVector2D.SMALL_NUMBER]
  · norm_num [Reached, pointAt, dirTable, defaultCharacter, FVector2D.sub, FVector2D.SizeLe,
      FVector2D.SizeSquared]
  · simp [Tick, Gated, startFrame, updateDrag, endFrame, scanQueue, Eliminated, Reached,
      RemoveTrick, defaultCharacter, initial, afterFirstPoint, constructed,
      varial, treflip, pointAt, dirTable, FVector2D.sub, FVector2D.SizeLe, FVector2D.SizeGe,
      FVector2D.SizeSquared, FVector2D.NormalizedDotLt, FVector2D.DotProduct,
      FVector2D.SMALL_NUMBER]
    norm_num

/-- C16, amended. The point-reached check is not applied after an elimination in the same
call. In an ungated `Tick` in which the first candidate `t` that does not pass is
eliminated by the direction/drag rule (so `TrickPointIndex != 0`), while a candidate `u`
behind it has its point at `TrickPointIndex` within `TrickPointExecDistance` of the
sample: the call removes `t` and ends the scan; `TrickPointIndex`, `LastTrickLocation`
and the eligible trick are unchanged and `u` stays in the queue, its point not taken. -/
theorem C16_elimination_ends_the_scan (c : Character) (s : MatchState) (analog : FVector2D)
    (pre post : List Trick) (t u : Trick) (p pu : TrickPoint)
    (hg : ¬ Gated c s analog)
    (hq : s.TrickQueue = pre ++ t :: post)
    (hpre : ∀ v ∈ pre, Passes c (startFrame s analog) analog v)
    (hp : t.Points[s.TrickPointIndex]? = some p)
    (he : Eliminated c (startFrame s analog) analog p)
    (hu : u ∈ post)
    (_hpu : u.Points[s.TrickPointIndex]? = some pu)
    (_hru : Reached c analog pu) :
    ∃ s', Tick c s analog = .ok s' ∧ s'.TrickPointIndex = s.TrickPointIndex ∧
      s'.LastTrickLocation = s.LastTrickLocation ∧ s'.EligibleTrick = s.EligibleTrick ∧
      s'.TrickQueue = pre ++ post ∧ u ∈ s'.TrickQueue := by
  have hne : pre ++ post ≠ [] := by
    intro h
    have : post = [] := (List.append_eq_nil.mp h).2
    rw [this] at hu
    cases hu
  have hlt : pre.length < (startFrame s analog).TrickQueue.length := by
    rw [startFrame_queue, hq]; simp
  have herase : (startFrame s analog).TrickQueue.eraseIdx pre.length = pre ++ post := by
    rw [startFrame_queue, hq]; exact eraseIdx_middle pre post t
  rw [Tick_ungated c s analog hg, hq,
    scanQueue_eliminated c _ analog _ pre post t p hpre (by rw [startFrame_index]; exact hp) he,
    RemoveTrick_keep c _ pre.length hlt (by rw [herase]; exact hne), herase]
  exact ⟨_, rfl, startFrame_index s analog, startFrame_last s analog,
    startFrame_eligible s analog, rfl, List.mem_append.mpr (Or.inr hu)⟩

/-- C16, witness: queue `[Varial, Treflip]`, point 0 reached at (1,0), analog (0,1). -/
theorem C16_elimination_ends_the_scan_witness :
    ∃ s', Tick (defaultCharacter [varial, treflip] false) (afterFirstPoint [varial, treflip])
        ⟨0, 1⟩ = .ok s' ∧
      s'.TrickPointIndex = (afterFirstPoint [varial, treflip]).TrickPointIndex ∧
      s'.LastTrickLocation = (afterFirstPoint [varial, treflip]).LastTrickLocation ∧
      s'.EligibleTrick = (afterFirstPoint [varial, treflip]).EligibleTrick ∧
      s'.TrickQueue = [] ++ [treflip] ∧ treflip ∈ s'.TrickQueue :=
  C16_elimination_ends_the_scan (defaultCharacter [varial, treflip] false)
    (afterFirstPoint [varial, treflip]) ⟨0, 1⟩ [] [treflip] varial treflip (pointAt 270)
    (pointAt 90)
    (by simp [Gated, afterFirstPoint, initial, constructed]) rfl
    (by intro v hv; cases hv) rfl
    (by norm_num [Eliminated, startFrame, updateDrag, afterFirstPoint, initial, constructed,
      pointAt, dirTable, defaultCharacter, FVector2D.sub, FVector2D.SizeGe,
      FVector2D.SizeSquared, FVector2D.NormalizedDotLt, FVector2D.DotProduct,
      FVector2D.SMALL_NUMBER])
    (by simp) rfl
    (by norm_num [Reached, pointAt, dirTable, defaultCharacter, FVector2D.sub,
      FVector2D.SizeLe, FVector2D.SizeSquared])

/-! ## C17: the last candidate reaches its last point -/

/-- C17, the code at the failing input. Library `[Ollie]`, a single trick with the single
point at 0°, state after `CustomBeginPlay`, analog (1,0): the gate is open and Ollie, of
length 1 = `TrickPointIndex + 1`, reaches its last point with no other trick in the
queue. Without a controller `Tick` auto-executes and returns in the attempt-reset state,
as the claim says. With a controller attached the same call, after the reset, ends in the
out-of-range access `TrickQueue[0].Points[1]` made for the controller update: the first
trick of the refilled queue has one point. -/
theorem C17_auto_execute_faults_on_controller_update :
    LibraryValid (defaultCharacter [ollie] true) ∧
      ¬ Gated (defaultCharacter [ollie] true) (initial [ollie]) ⟨1, 0⟩ ∧
      ollie.Points[(initial [ollie]).TrickPointIndex]? = some (pointAt 0) ∧
      Reached (defaultCharacter [ollie] true) ⟨1, 0⟩ (pointAt 0) ∧
      ollie.Points.length = (initial [ollie]).TrickPointIndex + 1 ∧
      Tick (defaultCharacter [ollie] false) (initial [ollie]) ⟨1, 0⟩ =
        .ok { TrickQueue := [ollie]
              TrickPointIndex := 0
              LastTrickLocation := ⟨0, 0⟩
              bIsDragging := true
              bReturningFromTrick := true
              EligibleTrick := ⟨"Ollie", []⟩
              PreviousLocation := ⟨1, 0⟩ } ∧
      Tick (defaultCharacter [ollie] true) (initial [ollie]) ⟨1, 0⟩ = .outOfBounds := by
  refine ⟨?_, ?_, rfl, ?_, rfl, ?_, ?_⟩
  · intro u hu
    simp [defaultCharacter] at hu
    subst hu
    simp [ollie]
  · simp [Gated, initial, constructed]
  · norm_num [Reached, pointAt, dirTable, defaultCharacter, FVector2D.sub, FVector2D.SizeLe,
      FVector2D.SizeSquared]
  · simp [Tick, Gated, startFrame, updateDrag, endFrame, scanQueue, Eliminated, Reached,
      reachPoint, RemoveTrick, removeSiblings, AttemptExecuteTrick, UpdateTrickLocation,
      defaultCharacter, initial, constructed, ollie, pointAt, dirTable, FVector2D.sub,
      FVector2D.SizeLe, FVector2D.SizeSquared]
  · simp [Tick, Gated, startFrame, updateDrag, endFrame, scanQueue, Eliminated, Reached,
      reachPoint, RemoveTrick, removeSiblings, AttemptExecuteTrick, UpdateTrickLocation,
      defaultCharacter, initial, constructed, ollie, pointAt, dirTable, FVector2D.sub,
      FVector2D.SizeLe, FVector2D.SizeSquared]

/-! ## C18: the sibling-removal loop as a filter pass -/

/-- The state `RemoveTrick` returns has a non-empty queue whenever its point index is at
least 1: an emptied queue is refilled by `AttemptExecuteTrick`, which sets the index to 0. -/
theorem RemoveTrick_queue_ne (c : Character) (s0 s1 : MatchState) (i : Nat)
    (h : RemoveTrick c s0 i = .ok s1) (hidx : 1 ≤ s1.TrickPointIndex) :
    s1.TrickQueue ≠ [] := by
  intro h0
  unfold RemoveTrick at h
  by_cases hi : i < s0.TrickQueue.length
  · by_cases he : (s0.TrickQueue.eraseIdx i).length = 0
    · simp only [hi, he, if_true] at h
      injection h with h
      rw [← h] at hidx
      simp [AttemptExecuteTrick] at hidx
    · simp only [hi, he, if_true, if_false] at h
      injection h with h
      rw [← h] at h0
      have h1 : s0.TrickQueue.eraseIdx i = [] := h0
      exact he (by rw [h1]; rfl)
  · simp only [hi, if_false] at h
    cases h

/-- Every state with a non-empty queue is a state `RemoveTrick` returns: the loop of
`Tick` can be entered with any non-empty queue. -/
theorem RemoveTrick_returns_any (c : Character) (s : MatchState) (t : Trick)
    (hne : s.TrickQueue ≠ []) :
    RemoveTrick c { s with TrickQueue := t :: s.TrickQueue } 0 = .ok s := by
  unfold RemoveTrick
  have hlen : s.TrickQueue.length ≠ 0 := fun h => hne (List.length_eq_zero.mp h)
  simp [List.eraseIdx, hlen]

/-- On a non-empty queue, for a library whose tricks all have at least one point, the
loop of `Tick` started at `j = 0`, `TricksRemoved = 0` returns the filter pass. -/
theorem removeSiblings_eq_filterSpec (c : Character) (hv : LibraryValid c) (s : MatchState)
    (fuel : Nat) (hne : s.TrickQueue ≠ [])
    (hfuel : s.TrickQueue.length + c.Tricks.length ≤ fuel) :
    removeSiblings c fuel s 0 0 = .ok (siblingFilterSpec c s) := by
  by_cases hex : ∃ t ∈ s.TrickQueue, t.Points.length ≠ s.TrickPointIndex
  · rw [removeSiblings_filter c s.TrickQueue [] s fuel 0 0 (by simp) (Nat.le_refl 0)
      (by simp) (by omega) (Or.inr (Or.inr hex))]
    simp only [siblingFilterSpec, if_pos hex, withoutLength, List.nil_append]
  · have hall : ∀ u ∈ s.TrickQueue, u.Points.length = s.TrickPointIndex := by
      intro u hu
      by_contra hlen
      exact hex ⟨u, hu, hlen⟩
    rw [removeSiblings_exhausted c hv s.TrickQueue s fuel 0 0 hne rfl hall (Nat.le_refl 0)
      rfl hfuel]
    simp only [siblingFilterSpec, if_neg hex]

/-- C18. For every library whose tricks all have at least one point and every state with
a point index of at least 1 in which `Tick` enters the index-compensated loop (the state
returned by the `RemoveTrick` call before it, which can hold any non-empty queue), the
loop, started at `j = 0`, `TricksRemoved = 0` with fuel for the queue and the library,
never indexes outside the queue and returns what a single filter pass gives: when some
candidate has a point count different from the point index, the queue filtered to the
candidates whose point count differs from it, in order, with the index kept; when none
has, the attempt-reset state with the queue equal to the library. -/
theorem C18_sibling_loop_is_filter (c : Character) (hv : LibraryValid c) (s : MatchState)
    (fuel : Nat) (hidx : 1 ≤ s.TrickPointIndex)
    (hfuel : s.TrickQueue.length + c.Tricks.length ≤ fuel) :
    (∀ (s0 : MatchState) (i : Nat), RemoveTrick c s0 i = .ok s →
        removeSiblings c fuel s 0 0 = .ok (siblingFilterSpec c s)) ∧
      (s.TrickQueue ≠ [] → removeSiblings c fuel s 0 0 = .ok (siblingFilterSpec c s)) ∧
      ((∃ t ∈ s.TrickQueue, t.Points.length ≠ s.TrickPointIndex) →
        (siblingFilterSpec c s).TrickQueue =
          s.TrickQueue.filter (fun t => decide (t.Points.length ≠ s.TrickPointIndex)) ∧
        (siblingFilterSpec c s).TrickPointIndex = s.TrickPointIndex) ∧
      ((∀ t ∈ s.TrickQueue, t.Points.length = s.TrickPointIndex) →
        siblingFilterSpec c s = AttemptExecuteTrick c s ∧
        (siblingFilterSpec c s).TrickQueue = c.Tricks ∧
        (siblingFilterSpec c s).TrickPointIndex = 0) := by
  refine ⟨?_, ?_, ?_, ?_⟩
  · intro s0 i h
    exact removeSiblings_eq_filterSpec c hv s fuel (RemoveTrick_queue_ne c s0 s i h hidx) hfuel
  · intro hne
    exact removeSiblings_eq_filterSpec c hv s fuel hne hfuel
  · intro hex
    unfold siblingFilterSpec
    rw [if_pos hex]
    exact ⟨rfl, rfl⟩
  · intro hall
    have hex : ¬ ∃ t ∈ s.TrickQueue, t.Points.length ≠ s.TrickPointIndex := by
      rintro ⟨t, ht, hlen⟩
      exact hlen (hall t ht)
    unfold siblingFilterSpec
    rw [if_neg hex]
    exact ⟨rfl, rfl, rfl⟩

/-- C18, witness: Kickflip has just become eligible with the point index 2 and
`RemoveTrick` has taken it out of the queue `[Kickflip, Shuvit, Treflip]`; the loop then
removes Shuvit and keeps Treflip. With Shuvit alone left in the queue the loop removes it
and ends in the attempt-reset state. -/
theorem C18_sibling_loop_is_filter_witness :
    (removeSiblings (defaultCharacter [kickflip, shuvit, treflip] false) 5
        { initial [shuvit, treflip] with TrickPointIndex := 2 } 0 0 =
      .ok (siblingFilterSpec (defaultCharacter [kickflip, shuvit, treflip] false)
        { initial [shuvit, treflip] with TrickPointIndex := 2 }) ∧
      (siblingFilterSpec (defaultCharacter [kickflip, shuvit, treflip] false)
        { initial [shuvit, treflip] with TrickPointIndex := 2 }).TrickQueue = [treflip]) ∧
    (removeSiblings (defaultCharacter [kickflip, shuvit] false) 3
        { initial [shuvit] with TrickPointIndex := 2 } 0 0 =
      .ok (siblingFilterSpec (defaultCharacter [kickflip, shuvit] false)
        { initial [shuvit] with TrickPointIndex := 2 }) ∧
      (siblingFilterSpec (defaultCharacter [kickflip, shuvit] false)
        { initial [shuvit] with TrickPointIndex := 2 }).TrickQueue =
          (defaultCharacter [kickflip, shuvit] false).Tricks) := by
  have h := C18_sibling_loop_is_filter (defaultCharacter [kickflip, shuvit, treflip] false)
    (by intro u hu; simp [defaultCharacter] at hu; rcases hu with rfl | rfl | rfl <;>
      simp [kickflip, shuvit, treflip])
    { initial [shuvit, treflip] with TrickPointIndex := 2 } 5
    (by simp) (by simp [initial, defaultCharacter])
  have h' := C18_sibling_loop_is_filter (defaultCharacter [kickflip, shuvit] false)
    (by intro u hu; simp [defaultCharacter] at hu; rcases hu with rfl | rfl <;>
      simp [kickflip, shuvit])
    { initial [shuvit] with TrickPointIndex := 2 } 3
    (by simp) (by simp [initial, defaultCharacter])
  refine ⟨⟨h.1 { initial [kickflip, shuvit, treflip] with TrickPointIndex := 2 } 0
      (by simp [RemoveTrick, initial, List.eraseIdx]), ?_⟩,
    ⟨h'.1 { initial [kickflip, shuvit] with TrickPointIndex := 2 } 0
      (by simp [RemoveTrick, initial, List.eraseIdx]), ?_⟩⟩
  · rw [(h.2.2.1 ⟨treflip, by simp [initial], by simp [treflip]⟩).1]
    simp [initial, List.filter, shuvit, treflip]
  · exact (h'.2.2.2 (by intro t ht; simp [initial] at ht; subst ht; simp [shuvit])).2.1

/-! ## C19: the return to the deadzone -/

/-- A point of length 1 is not within 0.2 of a sample of size at most 0.05. -/
theorem not_reached_in_deadzone (c : Character) (analog : FVector2D) (p : TrickPoint)
    (hdz : c.Deadzone = 1 / 20) (hexec : c.TrickPointExecDistance = 1 / 5)
    (hin : FVector2D.SizeLe analog c.Deadzone)
    (hunit : p.DesiredPosition.SizeSquared = 1) : ¬ Reached c analog p := by
  intro hr
  obtain ⟨ax, ay⟩ := analog
  obtain ⟨angle, ⟨dx, dy⟩, drag⟩ := p
  simp only [Reached, FVector2D.SizeLe, FVector2D.SizeSquared, FVector2D.sub, hdz, hexec]
    at hr hin hunit
  obtain ⟨_, h1⟩ := hin
  obtain ⟨_, h3⟩ := hr
  have hd : (12 : ℚ) / 25 ≤ ax * dx + ay * dy := by nlinarith [sq_nonneg ax, sq_nonneg ay]
  have hcs : (ax * dx + ay * dy) * (ax * dx + ay * dy) ≤ 1 / 400 := by
    nlinarith [sq_nonneg (ax * dy - ay * dx)]
  nlinarith

/-- C19, counterexample. The library `[Empty]`, whose only trick has no points (so all
its desired positions are unit vectors), as seeded by `CustomBeginPlay`; the state
`AttemptExecuteTrick` leaves, with `bReturningFromTrick = true` and `TrickPointIndex = 0`;
the analog (0,0), inside the deadzone. `Tick` does not return with the flags cleared: it
ends on the out-of-range access `TrickQueue[0].Points[0]` of the point-reached check. -/
theorem C19_counterexample :
    (CustomBeginPlay dirTable false (defaultCharacter [emptyTrick] false) constructed).1 =
        defaultCharacter [emptyTrick] false ∧
      (∀ t ∈ (defaultCharacter [emptyTrick] false).Tricks, ∀ p ∈ t.Points,
        p.DesiredPosition.SizeSquared = 1) ∧
      (AttemptExecuteTrick (defaultCharacter [emptyTrick] false)
        (initial [emptyTrick])).bReturningFromTrick = true ∧
      (AttemptExecuteTrick (defaultCharacter [emptyTrick] false)
        (initial [emptyTrick])).TrickPointIndex = 0 ∧
      FVector2D.SizeLe ⟨0, 0⟩ (defaultCharacter [emptyTrick] false).Deadzone ∧
      Tick (defaultCharacter [emptyTrick] false)
        (AttemptExecuteTrick (defaultCharacter [emptyTrick] false) (initial [emptyTrick]))
        ⟨0, 0⟩ = .outOfBounds := by
  refine ⟨?_, ?_, rfl, rfl, ?_, ?_⟩
  · simp [CustomBeginPlay, defaultCharacter, emptyTrick]
  · intro t ht p hp
    simp [defaultCharacter] at ht
    subst ht
    simp [emptyTrick] at hp
  · norm_num [defaultCharacter, FVector2D.SizeLe, FVector2D.SizeSquared]
  · have hg : ¬ Gated (defaultCharacter [emptyTrick] false)
        (AttemptExecuteTrick (defaultCharacter [emptyTrick] false) (initial [emptyTrick]))
        ⟨0, 0⟩ := by
      norm_num [Gated, defaultCharacter, FVector2D.SizeGt, FVector2D.SizeSquared]
    rw [Tick_ungated _ _ _ hg]
    simp [scanQueue, endFrame, AttemptExecuteTrick, defaultCharacter, emptyTrick]

/-- C19, amended. With the thresholds `Deadzone = 0.05` and `TrickPointExecDistance = 0.2`,
for every state with `bReturningFromTrick = true` and `TrickPointIndex = 0` whose queue
(the library, after an attempt-reset) holds tricks with at least one point each and with
desired positions of length 1, and every analog sample with `|analog| <= Deadzone`:
`Tick` clears `bReturningFromTrick` and `bIsDragging` and makes no matching progress; the
point index stays 0 and the queue, `LastTrickLocation` and the eligible trick are
unchanged. -/
theorem C19_return_to_neutral (c : Character) (s : MatchState) (analog : FVector2D)
    (hdz : c.Deadzone = 1 / 20) (hexec : c.TrickPointExecDistance = 1 / 5)
    (_hret : s.bReturningFromTrick = true) (hp0 : s.TrickPointIndex = 0)
    (hin : FVector2D.SizeLe analog c.Deadzone)
    (hpts : ∀ t ∈ s.TrickQueue, t.Points ≠ [])
    (hunit : ∀ t ∈ s.TrickQueue, ∀ p ∈ t.Points, p.DesiredPosition.SizeSquared = 1) :
    ∃ s', Tick c s analog = .ok s' ∧ s'.bReturningFromTrick = false ∧
      s'.bIsDragging = false ∧ s'.TrickPointIndex = 0 ∧ s'.TrickQueue = s.TrickQueue ∧
      s'.LastTrickLocation = s.LastTrickLocation ∧ s'.EligibleTrick = s.EligibleTrick := by
  have hg : ¬ Gated c s analog := by
    intro h
    have h1 := h.2
    unfold FVector2D.SizeGt at h1
    unfold FVector2D.SizeLe at hin
    rcases h1 with h1 | h1
    · exact absurd hin.1 (not_le.mpr h1)
    · exact absurd hin.2 (not_le.mpr h1)
  have hdrag : (startFrame s analog).bIsDragging = false := by
    have hlt : FVector2D.SizeLt analog (9 / 10) := by
      unfold FVector2D.SizeLt
      unfold FVector2D.SizeLe at hin
      rw [hdz] at hin
      constructor
      · norm_num
      · have := hin.2
        norm_num at this ⊢
        linarith
    unfold startFrame updateDrag
    by_cases hd : s.bIsDragging = true
    · simp [hd, hlt]
    · simp [hd]
  have hpass : ∀ t ∈ s.TrickQueue, Passes c (startFrame s analog) analog t := by
    intro t ht
    have hne := hpts t ht
    obtain ⟨p, hp⟩ : ∃ p, t.Points[0]? = some p := by
      cases hP : t.Points with
      | nil => exact absurd hP hne
      | cons a l => exact ⟨a, by simp⟩
    refine ⟨p, by rw [startFrame_index, hp0]; exact hp, ?_, ?_⟩
    · intro he
      exact he.1 (by rw [startFrame_index]; exact hp0)
    · exact not_reached_in_deadzone c analog p hdz hexec hin
        (hunit t ht p (List.getElem?_mem hp))
  rw [Tick_ungated c s analog hg, scanQueue_all_pass c _ analog _ _ hpass]
  exact ⟨_, rfl, startFrame_returning s analog, hdrag,
    by rw [← hp0]; exact startFrame_index s analog, startFrame_queue s analog,
    startFrame_last s analog, startFrame_eligible s analog⟩

/-- C19, witness: the library `[Kickflip]`, the state `AttemptExecuteTrick` leaves, and
the analog (0.03, 0.04), of size 0.05. -/
theorem C19_return_to_neutral_witness :
    ∃ s', Tick (defaultCharacter [kickflip] false)
        (AttemptExecuteTrick (defaultCharacter [kickflip] false) (afterFirstPoint [kickflip]))
        ⟨3 / 100, 4 / 100⟩ = .ok s' ∧
      s'.bReturningFromTrick = false ∧ s'.bIsDragging = false ∧ s'.TrickPointIndex = 0 ∧
      s'.TrickQueue = (AttemptExecuteTrick (defaultCharacter [kickflip] false)
        (afterFirstPoint [kickflip])).TrickQueue ∧
      s'.LastTrickLocation = (AttemptExecuteTrick (defaultCharacter [kickflip] false)
        (afterFirstPoint [kickflip])).LastTrickLocation ∧
      s'.EligibleTrick = (AttemptExecuteTrick (defaultCharacter [kickflip] false)
        (afterFirstPoint [kickflip])).EligibleTrick :=
  C19_return_to_neutral (defaultCharacter [kickflip] false)
    (AttemptExecuteTrick (defaultCharacter [kickflip] false) (afterFirstPoint [kickflip]))
    ⟨3 / 100, 4 / 100⟩ rfl rfl rfl rfl
    (by norm_num [defaultCharacter, FVector2D.SizeLe, FVector2D.SizeSquared])
    (by intro t ht
        simp [AttemptExecuteTrick, defaultCharacter] at ht
        subst ht
        simp [kickflip])
    (by intro t ht p hp
        simp [AttemptExecuteTrick, defaultCharacter] at ht
        subst ht
        simp [kickflip] at hp
        rcases hp with rfl | rfl <;>
          norm_num [pointAt, dirTable, FVector2D.SizeSquared])

/-! ## C20: the defensive branch -/

/-- The reached branch of `Tick` split by the branch taken after the increment: the
branch `TrickPointIndex > Points.Num()` only draws debug text, so it ends like the case
in which no branch is taken. -/
theorem reachPoint_by_branch (c : Character) (fuel : Nat) (s : MatchState) (i : Nat)
    (t : Trick) (p : TrickPoint) :
    reachPoint c fuel s i t p =
      match reachBranch s t with
      | .eligible =>
        match RemoveTrick c { s with
            TrickPointIndex := s.TrickPointIndex + 1
            LastTrickLocation := p.DesiredPosition
            EligibleTrick := t } i with
        | .ok s2 =>
          match removeSiblings c fuel s2 0 0 with
          | .ok s3 => UpdateTrickLocation c s3
          | f => f
        | f => f
      | .defensive =>
        UpdateTrickLocation c { s with
          TrickPointIndex := s.TrickPointIndex + 1
          LastTrickLocation := p.DesiredPosition }
      | .advance =>
        UpdateTrickLocation c { s with
          TrickPointIndex := s.TrickPointIndex + 1
          LastTrickLocation := p.DesiredPosition } := by
  unfold reachPoint reachBranch
  by_cases h1 : s.TrickPointIndex + 1 = t.Points.length
  · simp only [h1, if_true]
    cases RemoveTrick c { s with
        TrickPointIndex := t.Points.length
        LastTrickLocation := p.DesiredPosition
        EligibleTrick := t } i with
    | ok s2 => cases removeSiblings c fuel s2 0 0 <;> rfl
    | outOfBounds => rfl
    | diverged => rfl
  · by_cases h2 : s.TrickPointIndex + 1 > t.Points.length
    · simp only [h1, h2, if_false, if_true]
    · simp only [h1, h2, if_false]

/-- C20. For every match state and analog sample in which the point-reached check
succeeds for a candidate `t` (its point at the old `TrickPointIndex` exists and is within
`TrickPointExecDistance`), the incremented point index is at most the point count of `t`:
after the increment `Tick` takes the eligible branch or none, never the branch
`TrickPointIndex > Points.Num()`. -/
theorem C20_defensive_branch_never_taken (c : Character) (s : MatchState)
    (analog : FVector2D) (t : Trick) (p : TrickPoint)
    (hp : t.Points[s.TrickPointIndex]? = some p) (_hr : Reached c analog p) :
    s.TrickPointIndex + 1 ≤ t.Points.length ∧ reachBranch s t ≠ ReachBranch.defensive ∧
      (reachBranch s t = ReachBranch.eligible ↔ s.TrickPointIndex + 1 = t.Points.length) := by
  have hlt : s.TrickPointIndex < t.Points.length := by
    obtain ⟨h, _⟩ := List.getElem?_eq_some_iff.mp hp
    exact h
  refine ⟨hlt, ?_, ?_⟩
  · unfold reachBranch
    by_cases h1 : s.TrickPointIndex + 1 = t.Points.length
    · simp [h1]
    · have h2 : ¬ s.TrickPointIndex + 1 > t.Points.length := by omega
      simp [h1, h2]
  · unfold reachBranch
    by_cases h1 : s.TrickPointIndex + 1 = t.Points.length
    · simp [h1]
    · have h2 : ¬ s.TrickPointIndex + 1 > t.Points.length := by omega
      simp [h1, h2]

/-- C20, witness: Kickflip at the initial state with analog (1,0): the index becomes 1, at
most 2, and no branch is taken. -/
theorem C20_defensive_branch_never_taken_witness :
    (initial [kickflip]).TrickPointIndex + 1 ≤ kickflip.Points.length ∧
      reachBranch (initial [kickflip]) kickflip ≠ ReachBranch.defensive ∧
      (reachBranch (initial [kickflip]) kickflip = ReachBranch.eligible ↔
        (initial [kickflip]).TrickPointIndex + 1 = kickflip.Points.length) :=
  C20_defensive_branch_never_taken (defaultCharacter [kickflip] false) (initial [kickflip])
    ⟨1, 0⟩ kickflip (pointAt 0) rfl
    (by norm_num [Reached, pointAt, dirTable, defaultCharacter, FVector2D.sub,
      FVector2D.SizeLe, FVector2D.SizeSquared])

end SkateProject
